import Mathlib

/-!
Verification of the pyro2 compressible flux kernels
(`compressible/unsplitFluxes.py` and `compressible_rk/fluxes.py`).

Grids are modelled as total functions on integer indices; conserved and
primitive fields carry a component index `n : ℕ` (0 = density, 1 = x-momentum,
2 = y-momentum, 3 = energy for conserved; 0 = rho, 1 = u, 2 = v, 3 = p for
primitive).  Python loops that mutate numpy arrays are embedded as folds over
explicit index lists; vectorized numpy slice assignments are embedded as
pointwise overlays over the assigned region.
-/

noncomputable section


/-- A per-cell scalar field over the padded grid. -/
def SArr : Type := ℤ → ℤ → ℝ

/-- A per-cell vector field (one value per conserved/primitive component). -/
def Arr : Type := ℤ → ℤ → ℕ → ℝ

/-- The pressure floor from `unsplitFluxes.py` line 170 (`smallp = 1.e-10`). -/
def smallp : ℝ := 1e-10

/-- `numpy.sign` on reals. -/
def npsign (x : ℝ) : ℝ := if 0 < x then 1 else if x < 0 then -1 else 0

/-- Modelled from the spec: the equation-of-state collaborator `eos.pres`
(the `eos` module is not under `src/`).  Spec §6: "pressure(ρ,
specific_internal_energy) → p, ... pure functions of a single gas constant γ"
for a gamma-law gas, i.e. `p = ρ e (γ − 1)`. -/
def eosPres (gamma rho e : ℝ) : ℝ := rho * e * (gamma - 1)

/-- Modelled from the spec: the equation-of-state collaborator `eos.rhoe`
(the `eos` module is not under `src/`).  Spec §6: "internal_energy_density(p)
→ ρe" for a gamma-law gas, i.e. `ρe = p / (γ − 1)`. -/
def eosRhoe (gamma p : ℝ) : ℝ := p / (gamma - 1)

/-- The grid geometry supplied by the grid collaborator: `nx × ny` interior
cells with `ng` ghost layers on each side, and uniform spacings `dx`, `dy`. -/
structure Grid where
  nx : ℕ
  ny : ℕ
  ng : ℕ
  dx : ℝ
  dy : ℝ

namespace Grid

/-- Padded width: `qx = nx + 2 ng`. -/
def qx (g : Grid) : ℤ := g.nx + 2 * g.ng

/-- Padded height: `qy = ny + 2 ng`. -/
def qy (g : Grid) : ℤ := g.ny + 2 * g.ng

/-- First interior column index. -/
def ilo (g : Grid) : ℤ := g.ng

/-- Last interior column index. -/
def ihi (g : Grid) : ℤ := g.ng + g.nx - 1

/-- First interior row index. -/
def jlo (g : Grid) : ℤ := g.ng

/-- Last interior row index. -/
def jhi (g : Grid) : ℤ := g.ng + g.ny - 1

end Grid

/-- `ilist lo k` is the list `[lo, lo+1, …, lo+k-1]`. -/
def ilist (lo : ℤ) : ℕ → List ℤ
  | 0 => []
  | k + 1 => lo :: ilist (lo + 1) k

/-- The inclusive integer range `[lo, hi]`, as traversed by a Python
`while` loop `i = lo; while i <= hi: …; i += 1`. -/
def intRange (lo hi : ℤ) : List ℤ := ilist lo (hi + 1 - lo).toNat

/-!
## The transverse-correction loop of `unsplitFluxes`
(`compressible/unsplitFluxes.py`, lines 374–398.)

The Python loop mutates the four conserved interface-state arrays
`U_xl, U_xr, U_yl, U_yr` in place, cell by cell and component by component.
We embed the loop nest as folds over the exact index ranges of the source,
with a state record holding the four arrays and pointwise functional update
standing in for the in-place numpy writes.
-/

/-- The four directional conserved interface-state arrays mutated by the
transverse-correction loop. -/
structure TransState where
  xl : Arr
  xr : Arr
  yl : Arr
  yr : Arr

/-- In-place update of one entry of a cell/component array. -/
def updA (A : Arr) (i j : ℤ) (n : ℕ) (x : ℝ) : Arr :=
  fun i' j' n' => if i' = i ∧ j' = j ∧ n' = n then x else A i' j' n'

/-- Body of the innermost (`n`) loop of the transverse correction: the four
in-place updates of `unsplitFluxes.py` lines 384–394, in source order. -/
def transCell (dt dx dy : ℝ) (Fx Fy : Arr) (i j : ℤ) (n : ℕ)
    (s : TransState) : TransState :=
  let vxl := s.xl i j n - 0.5 * dt / dy * (Fy (i - 1) (j + 1) n - Fy (i - 1) j n)
  let s1 : TransState := { s with xl := updA s.xl i j n vxl }
  let vxr := s1.xr i j n - 0.5 * dt / dy * (Fy i (j + 1) n - Fy i j n)
  let s2 : TransState := { s1 with xr := updA s1.xr i j n vxr }
  let vyl := s2.yl i j n - 0.5 * dt / dx * (Fx (i + 1) (j - 1) n - Fx i (j - 1) n)
  let s3 : TransState := { s2 with yl := updA s2.yl i j n vyl }
  let vyr := s3.yr i j n - 0.5 * dt / dx * (Fx (i + 1) j n - Fx i j n)
  { s3 with yr := updA s3.yr i j n vyr }

/-- The `while (n < myData.nvar)` loop (nvar = 4) at fixed cell `(i,j)`. -/
def transN (dt dx dy : ℝ) (Fx Fy : Arr) (i j : ℤ) (s : TransState) : TransState :=
  (List.range 4).foldl (fun s n => transCell dt dx dy Fx Fy i j n s) s

/-- The `while (i <= myg.ihi+2)` loop at fixed row `j`. -/
def transI (g : Grid) (dt : ℝ) (Fx Fy : Arr) (j : ℤ) (s : TransState) : TransState :=
  (intRange (g.ilo - 2) (g.ihi + 2)).foldl
    (fun s i => transN dt g.dx g.dy Fx Fy i j s) s

/-- The whole transverse-correction loop nest of `unsplitFluxes.py`
lines 375–398: rows `jlo-2 … jhi+2`, columns `ilo-2 … ihi+2`, components
`0 … 3`. -/
def transLoop (g : Grid) (dt : ℝ) (Fx Fy : Arr) (s : TransState) : TransState :=
  (intRange (g.jlo - 2) (g.jhi + 2)).foldl
    (fun s j => transI g dt Fx Fy j s) s

/-- The decrement applied to `U_xl[i,j,n]` by the transverse correction. -/
def dXL (dt dy : ℝ) (Fy : Arr) (i j : ℤ) (n : ℕ) : ℝ :=
  0.5 * dt / dy * (Fy (i - 1) (j + 1) n - Fy (i - 1) j n)

/-- The decrement applied to `U_xr[i,j,n]` by the transverse correction. -/
def dXR (dt dy : ℝ) (Fy : Arr) (i j : ℤ) (n : ℕ) : ℝ :=
  0.5 * dt / dy * (Fy i (j + 1) n - Fy i j n)

/-- The decrement applied to `U_yl[i,j,n]` by the transverse correction. -/
def dYL (dt dx : ℝ) (Fx : Arr) (i j : ℤ) (n : ℕ) : ℝ :=
  0.5 * dt / dx * (Fx (i + 1) (j - 1) n - Fx i (j - 1) n)

/-- The decrement applied to `U_yr[i,j,n]` by the transverse correction. -/
def dYR (dt dx : ℝ) (Fx : Arr) (i j : ℤ) (n : ℕ) : ℝ :=
  0.5 * dt / dx * (Fx (i + 1) j n - Fx i j n)

/-- Auxiliary form of the `n` loop, cut off after `k` iterations. -/
def transNAux (dt dx dy : ℝ) (Fx Fy : Arr) (i j : ℤ) (k : ℕ)
    (s : TransState) : TransState :=
  (List.range k).foldl (fun s n => transCell dt dx dy Fx Fy i j n s) s

/-- Auxiliary form of the `i` loop, over the `k` columns starting at `lo`. -/
def transIAux (g : Grid) (dt : ℝ) (Fx Fy : Arr) (j lo : ℤ) (k : ℕ)
    (s : TransState) : TransState :=
  (ilist lo k).foldl (fun s i => transN dt g.dx g.dy Fx Fy i j s) s

/-- Auxiliary form of the `j` loop, over the `k` rows starting at `lo`. -/
def transJAux (g : Grid) (dt : ℝ) (Fx Fy : Arr) (lo : ℤ) (k : ℕ)
    (s : TransState) : TransState :=
  (ilist lo k).foldl (fun s j => transI g dt Fx Fy j s) s

/-!
## `interfaceStates` (characteristic tracing)
(`compressible/unsplitFluxes.py`, lines 433–612.)

Per zone `(i,j)` the source builds the local primitive vector `V`, slope
vector `dV`, sound speed, eigenvalues and the analytic left/right eigenvector
matrices of the gamma-law Euler system projected on the sweep direction, then
writes the reference states into `V_l`/`V_r` and accumulates the
characteristic projections.  Vectors are `ℕ → ℝ` with 4 live components.
-/

/-- A 4-vector (numpy array of length 4). -/
def vec4 (a b c d : ℝ) : ℕ → ℝ := fun m =>
  match m with
  | 0 => a
  | 1 => b
  | 2 => c
  | 3 => d
  | _ => 0

/-- A 4×4 matrix given by its rows (numpy array of shape (4,4)). -/
def mat4 (r0 r1 r2 r3 : ℕ → ℝ) : ℕ → ℕ → ℝ := fun m =>
  match m with
  | 0 => r0
  | 1 => r1
  | 2 => r2
  | 3 => r3
  | _ => fun _ => 0

/-- The pair of interface-state arrays `(V_l, V_r)` built by
`interfaceStates`. -/
structure StatesPair where
  Vl : Arr
  Vr : Arr

/-- The local sound speed `cs = math.sqrt(gamma*p[i,j]/r[i,j])`
(line 521), as a function of the local primitive vector `q = (ρ,u,v,p)`. -/
def zCs (gamma : ℝ) (q : ℕ → ℝ) : ℝ := Real.sqrt (gamma * q 3 / q 0)

/-- The eigenvalues `{u−cs, u, u, u+cs}` (`v` for the y sweep);
lines 528 and 541. -/
def zEvals (idir : ℕ) (gamma : ℝ) (q : ℕ → ℝ) : ℕ → ℝ :=
  if idir = 1 then
    vec4 (q 1 - zCs gamma q) (q 1) (q 1) (q 1 + zCs gamma q)
  else
    vec4 (q 2 - zCs gamma q) (q 2) (q 2) (q 2 + zCs gamma q)

/-- The left eigenvector matrix (rows `lvec[m,:]`); lines 530–533 and
543–546. -/
def zLvec (idir : ℕ) (gamma : ℝ) (q : ℕ → ℝ) : ℕ → ℕ → ℝ :=
  let cs := zCs gamma q
  if idir = 1 then
    mat4 (vec4 0 (-(0.5 * q 0 / cs)) 0 (0.5 / (cs * cs)))
         (vec4 1 0 0 (-(1 / (cs * cs))))
         (vec4 0 0 1 0)
         (vec4 0 (0.5 * q 0 / cs) 0 (0.5 / (cs * cs)))
  else
    mat4 (vec4 0 0 (-(0.5 * q 0 / cs)) (0.5 / (cs * cs)))
         (vec4 1 0 0 (-(1 / (cs * cs))))
         (vec4 0 1 0 0)
         (vec4 0 0 (0.5 * q 0 / cs) (0.5 / (cs * cs)))

/-- The right eigenvector matrix (rows `rvec[m,:]`); lines 535–538 and
548–551. -/
def zRvec (idir : ℕ) (gamma : ℝ) (q : ℕ → ℝ) : ℕ → ℕ → ℝ :=
  let cs := zCs gamma q
  if idir = 1 then
    mat4 (vec4 1 (-(cs / q 0)) 0 (cs * cs))
         (vec4 1 0 0 0)
         (vec4 0 0 1 0)
         (vec4 1 (cs / q 0) 0 (cs * cs))
  else
    mat4 (vec4 1 0 (-(cs / q 0)) (cs * cs))
         (vec4 1 0 0 0)
         (vec4 0 1 0 0)
         (vec4 1 0 (cs / q 0) (cs * cs))

/-- `betal[m]` (line 588): `dtdx4*(eval[3]-eval[m])*(sign(eval[m])+1)*
(lvec[m,:]·dV)`. -/
def zBetal (idir : ℕ) (gamma dtdx : ℝ) (q dq : ℕ → ℝ) : ℕ → ℝ := fun m =>
  0.25 * dtdx * (zEvals idir gamma q 3 - zEvals idir gamma q m) *
    (npsign (zEvals idir gamma q m) + 1) *
    (∑ k ∈ Finset.range 4, zLvec idir gamma q m k * dq k)

/-- `betar[m]` (line 589): `dtdx4*(eval[0]-eval[m])*(1-sign(eval[m]))*
(lvec[m,:]·dV)`. -/
def zBetar (idir : ℕ) (gamma dtdx : ℝ) (q dq : ℕ → ℝ) : ℕ → ℝ := fun m =>
  0.25 * dtdx * (zEvals idir gamma q 0 - zEvals idir gamma q m) *
    (1 - npsign (zEvals idir gamma q m)) *
    (∑ k ∈ Finset.range 4, zLvec idir gamma q m k * dq k)

/-- The auxiliary `m`-loop of the per-zone construction step (lines 593–605):
add `betal·rvec[:,m]` to the left-target entry and `betar·rvec[:,m]` to the
right-target entry, for `m = 0 … k-1`. -/
def incrPairAux (iL jL iR jR : ℤ) (addL addR : ℕ → ℝ) (k : ℕ)
    (s : StatesPair) : StatesPair :=
  (List.range k).foldl (fun st m =>
    { Vl := updA st.Vl iL jL m (st.Vl iL jL m + addL m),
      Vr := updA st.Vr iR jR m (st.Vr iR jR m + addR m) }) s

/-- Left-target column offset of a zone write: `V_l[i+1,j]` for the x sweep,
`V_l[i,j+1]` for the y sweep. -/
def offI (idir : ℕ) : ℤ := if idir = 1 then 1 else 0

/-- Left-target row offset of a zone write. -/
def offJ (idir : ℕ) : ℤ := if idir = 1 then 0 else 1

/-- The local primitive 4-vector `V = (r, u, v, p)[i,j]` (line 519). -/
def zV (r u v p : SArr) (i j : ℤ) : ℕ → ℝ :=
  vec4 (r i j) (u i j) (v i j) (p i j)

/-- The local limited-slope 4-vector `dV` (line 517). -/
def zDV (ldelta_r ldelta_u ldelta_v ldelta_p : SArr) (i j : ℤ) : ℕ → ℝ :=
  vec4 (ldelta_r i j) (ldelta_u i j) (ldelta_v i j) (ldelta_p i j)

/-- The reference-state slice writes of `interfaceStates` (lines 556–573):
`V_l[left target,:] = V + factor_l*dV` and `V_r[i,j,:] = V - factor_r*dV`,
with `factor_l = 0.5(1 − dtdx·max(eval[3],0))`,
`factor_r = 0.5(1 + dtdx·min(eval[0],0))`. -/
def refPair (idir : ℕ) (gamma dtdx : ℝ)
    (r u v p ldelta_r ldelta_u ldelta_v ldelta_p : SArr)
    (i j : ℤ) (s : StatesPair) : StatesPair where
  Vl := fun a b m =>
    if a = i + offI idir ∧ b = j + offJ idir ∧ m < 4 then
      zV r u v p i j m +
        0.5 * (1 - dtdx * max (zEvals idir gamma (zV r u v p i j) 3) 0) *
          zDV ldelta_r ldelta_u ldelta_v ldelta_p i j m
    else s.Vl a b m
  Vr := fun a b m =>
    if a = i ∧ b = j ∧ m < 4 then
      zV r u v p i j m -
        0.5 * (1 + dtdx * min (zEvals idir gamma (zV r u v p i j) 0) 0) *
          zDV ldelta_r ldelta_u ldelta_v ldelta_p i j m
    else s.Vr a b m

/-- The body of the zone loop of `interfaceStates` (lines 514–607): write the
reference states into `V_l`/`V_r`, then accumulate the characteristic
projections `betal·rvec[:,m]` / `betar·rvec[:,m]` (lines 580–605). -/
def statesZone (idir : ℕ) (gamma dtdx : ℝ)
    (r u v p ldelta_r ldelta_u ldelta_v ldelta_p : SArr)
    (i j : ℤ) (s : StatesPair) : StatesPair :=
  incrPairAux (i + offI idir) (j + offJ idir) i j
    (fun m => ∑ k ∈ Finset.range 4,
      zBetal idir gamma dtdx (zV r u v p i j)
        (zDV ldelta_r ldelta_u ldelta_v ldelta_p i j) k *
      zRvec idir gamma (zV r u v p i j) k m)
    (fun m => ∑ k ∈ Finset.range 4,
      zBetar idir gamma dtdx (zV r u v p i j)
        (zDV ldelta_r ldelta_u ldelta_v ldelta_p i j) k *
      zRvec idir gamma (zV r u v p i j) k m)
    4 (refPair idir gamma dtdx r u v p ldelta_r ldelta_u ldelta_v ldelta_p i j s)

/-- The complete per-zone left-state value: reference state plus
characteristic corrections. -/
def zoneL (idir : ℕ) (gamma dtdx : ℝ)
    (r u v p ldelta_r ldelta_u ldelta_v ldelta_p : SArr)
    (i j : ℤ) (m : ℕ) : ℝ :=
  zV r u v p i j m +
    0.5 * (1 - dtdx * max (zEvals idir gamma (zV r u v p i j) 3) 0) *
      zDV ldelta_r ldelta_u ldelta_v ldelta_p i j m +
    ∑ k ∈ Finset.range 4,
      zBetal idir gamma dtdx (zV r u v p i j)
        (zDV ldelta_r ldelta_u ldelta_v ldelta_p i j) k *
      zRvec idir gamma (zV r u v p i j) k m

/-- The complete per-zone right-state value. -/
def zoneR (idir : ℕ) (gamma dtdx : ℝ)
    (r u v p ldelta_r ldelta_u ldelta_v ldelta_p : SArr)
    (i j : ℤ) (m : ℕ) : ℝ :=
  zV r u v p i j m -
    0.5 * (1 + dtdx * min (zEvals idir gamma (zV r u v p i j) 0) 0) *
      zDV ldelta_r ldelta_u ldelta_v ldelta_p i j m +
    ∑ k ∈ Finset.range 4,
      zBetar idir gamma dtdx (zV r u v p i j)
        (zDV ldelta_r ldelta_u ldelta_v ldelta_p i j) k *
      zRvec idir gamma (zV r u v p i j) k m

/-- Auxiliary form of the zone loop over `k` columns starting at `lo`
(fixed row `j`). -/
def statesIAux (idir : ℕ) (gamma dtdx : ℝ)
    (r u v p ldelta_r ldelta_u ldelta_v ldelta_p : SArr)
    (j lo : ℤ) (k : ℕ) (s : StatesPair) : StatesPair :=
  (ilist lo k).foldl (fun s i =>
    statesZone idir gamma dtdx r u v p
      ldelta_r ldelta_u ldelta_v ldelta_p i j s) s

/-- Auxiliary form of the zone loop over `k` rows starting at `lo`. -/
def statesJAux (g : Grid) (idir : ℕ) (gamma dtdx : ℝ)
    (r u v p ldelta_r ldelta_u ldelta_v ldelta_p : SArr)
    (lo : ℤ) (k : ℕ) (s : StatesPair) : StatesPair :=
  (ilist lo k).foldl (fun s j =>
    statesIAux idir gamma dtdx r u v p
      ldelta_r ldelta_u ldelta_v ldelta_p j (g.ilo - 2)
      (g.ihi + 2 + 1 - (g.ilo - 2)).toNat s) s

/-- The zero-initialized interface-state arrays
(`V_l = numpy.zeros(...)`, `V_r = numpy.zeros(...)`, lines 445–446). -/
def zerosPair : StatesPair where
  Vl := fun _ _ _ => 0
  Vr := fun _ _ _ => 0

/-- `interfaceStates(idir, myg, dt, r, u, v, p, ldelta_r, ldelta_u,
ldelta_v, ldelta_p)` of `unsplitFluxes.py` lines 433–612: the zone loop over
`jlo-2 … jhi+2` × `ilo-2 … ihi+2` applied to freshly zeroed `V_l`, `V_r`,
with `dtdx = dt/dx` for the x sweep (`idir = 1`) and `dt/dy` for the y sweep.
`gamma` is the runtime parameter `eos.gamma`. -/
def interfaceStates (idir : ℕ) (g : Grid) (gamma dt : ℝ)
    (r u v p ldelta_r ldelta_u ldelta_v ldelta_p : SArr) : StatesPair :=
  statesJAux g idir gamma (if idir = 1 then dt / g.dx else dt / g.dy)
    r u v p ldelta_r ldelta_u ldelta_v ldelta_p
    (g.jlo - 2) (g.jhi + 2 + 1 - (g.jlo - 2)).toNat zerosPair

/-!
## The `unsplitFluxes` pipeline
(`compressible/unsplitFluxes.py`, lines 132–429.)

The external collaborators invoked by the routine — the Fortran
reconstruction module (`reconstruction_f.flatten`, `flatten_multid`,
`limit4`), the Fortran interface-state routine (`interface_f.states`) and the
Riemann solver (`interface_f.riemann`) — are not part of the embedded source;
the pipeline is parameterized over them, so every theorem below holds for
every choice of collaborator.
-/

/-- The external collaborators consumed by `unsplitFluxes`. -/
structure Collab where
  flatten : ℕ → SArr → SArr → SArr
  flattenMultid : SArr → SArr → SArr → SArr
  limit4 : ℕ → SArr → SArr
  states : ℕ → ℝ → ℝ → ℝ →
    (SArr × SArr × SArr × SArr) → (SArr × SArr × SArr × SArr) → StatesPair
  riemann : ℕ → Arr → Arr → Arr

/-- `u = xmom/dens` (line 162). -/
def unsplit_u (dens xmom : SArr) : SArr := fun i j => xmom i j / dens i j

/-- `v = ymom/dens` (line 163). -/
def unsplit_v (dens ymom : SArr) : SArr := fun i j => ymom i j / dens i j

/-- `e = (ener - 0.5*(xmom**2 + ymom**2)/dens)/dens` (line 166). -/
def unsplit_e (dens xmom ymom ener : SArr) : SArr := fun i j =>
  (ener i j - 0.5 * ((xmom i j) ^ 2 + (ymom i j) ^ 2) / dens i j) / dens i j

/-- `p = eos.pres(dens, e)` followed by `p = p.clip(smallp)`
(lines 168–171): the gamma-law pressure floored at `smallp`. -/
def unsplit_p (gamma : ℝ) (dens xmom ymom ener : SArr) : SArr := fun i j =>
  max (eosPres gamma (dens i j) (unsplit_e dens xmom ymom ener i j)) smallp

/-- The primitive-to-conserved transform of lines 236–249 (and identically
287–297): density passes through, momenta are `ρ·velocity`, energy is
`eos.rhoe(p) + 0.5ρ(u²+v²)`.  Components beyond 3 keep the `numpy.zeros`
initialization of the output array. -/
def primToCons (gamma : ℝ) (V : Arr) : Arr := fun i j n =>
  match n with
  | 0 => V i j 0
  | 1 => V i j 0 * V i j 1
  | 2 => V i j 0 * V i j 2
  | 3 => eosRhoe gamma (V i j 3) + 0.5 * V i j 0 * ((V i j 1) ^ 2 + (V i j 2) ^ 2)
  | _ => 0

/-- The four pre-correction conserved interface-state arrays
`(U_xl, U_xr, U_yl, U_yr)` of `unsplitFluxes` (lines 149–297): primitive
derivation, flattening, limited slopes, interface states per direction, and
the conserved transform. -/
def unsplitPreStates (C : Collab) (g : Grid) (gamma dt : ℝ)
    (dens xmom ymom ener : SArr) : TransState :=
  let u := unsplit_u dens xmom
  let v := unsplit_v dens ymom
  let p := unsplit_p gamma dens xmom ymom ener
  let xi := C.flattenMultid (C.flatten 1 p u) (C.flatten 2 p v) p
  let ldrx : SArr := fun i j => xi i j * C.limit4 1 dens i j
  let ldux : SArr := fun i j => xi i j * C.limit4 1 u i j
  let ldvx : SArr := fun i j => xi i j * C.limit4 1 v i j
  let ldpx : SArr := fun i j => xi i j * C.limit4 1 p i j
  let Vx := C.states 1 g.dx dt gamma (dens, u, v, p) (ldrx, ldux, ldvx, ldpx)
  let ldry : SArr := fun i j => xi i j * C.limit4 2 dens i j
  let lduy : SArr := fun i j => xi i j * C.limit4 2 u i j
  let ldvy : SArr := fun i j => xi i j * C.limit4 2 v i j
  let ldpy : SArr := fun i j => xi i j * C.limit4 2 p i j
  let Vy := C.states 2 g.dy dt gamma (dens, u, v, p) (ldry, lduy, ldvy, ldpy)
  { xl := primToCons gamma Vx.Vl
    xr := primToCons gamma Vx.Vr
    yl := primToCons gamma Vy.Vl
    yr := primToCons gamma Vy.Vr }

/-- The transverse fluxes: the FIRST Riemann invocation (lines 314–323),
applied to the pre-correction interface states. -/
def unsplitTransFx (C : Collab) (g : Grid) (gamma dt : ℝ)
    (dens xmom ymom ener : SArr) : Arr :=
  C.riemann 1 (unsplitPreStates C g gamma dt dens xmom ymom ener).xl
    (unsplitPreStates C g gamma dt dens xmom ymom ener).xr

/-- The transverse fluxes in y: first Riemann invocation, y direction. -/
def unsplitTransFy (C : Collab) (g : Grid) (gamma dt : ℝ)
    (dens xmom ymom ener : SArr) : Arr :=
  C.riemann 2 (unsplitPreStates C g gamma dt dens xmom ymom ener).yl
    (unsplitPreStates C g gamma dt dens xmom ymom ener).yr

/-- The corrected interface states: the transverse-correction loop applied to
the pre-correction states using the transverse fluxes. -/
def unsplitCorrected (C : Collab) (g : Grid) (gamma dt : ℝ)
    (dens xmom ymom ener : SArr) : TransState :=
  transLoop g dt (unsplitTransFx C g gamma dt dens xmom ymom ener)
    (unsplitTransFy C g gamma dt dens xmom ymom ener)
    (unsplitPreStates C g gamma dt dens xmom ymom ener)

/-- `unsplitFluxes(myData, dt)` (lines 132–429): the full pipeline.  The
returned pair is the SECOND Riemann invocation (lines 408–419), which
overwrites the transverse fluxes. -/
def unsplitFluxes (C : Collab) (g : Grid) (gamma dt : ℝ)
    (dens xmom ymom ener : SArr) : Arr × Arr :=
  let pre := unsplitPreStates C g gamma dt dens xmom ymom ener
  let Fx := C.riemann 1 pre.xl pre.xr
  let Fy := C.riemann 2 pre.yl pre.yr
  let sc := transLoop g dt Fx Fy pre
  (C.riemann 1 sc.xl sc.xr, C.riemann 2 sc.yl sc.yr)

/-!
## Index footprint of the transverse-correction loop (safety)

`F_x` and `F_y` are numpy arrays of shape `(qx, qy, 4)`.  A raw Python index
`t` into an axis of length `q` resolves without wrapping iff `0 ≤ t < q`;
for `-q ≤ t < 0` it silently wraps to `q + t`; outside `[-q, q)` it raises
`IndexError`.
-/

/-- Python index resolution on an axis of length `q` (for `-q ≤ t < q`). -/
def pyResolve (q t : ℤ) : ℤ := if t < 0 then q + t else t

/-- A raw index that resolves in bounds without wrapping. -/
def pyNoWrap (q t : ℤ) : Prop := 0 ≤ t ∧ t < q

/-- The set of `(i-index, j-index)` pairs at which the transverse-correction
loop (lines 375–398) reads `F_y`: for every cell `(i,j)` of the loop range it
reads `F_y[i-1,j+1]`, `F_y[i-1,j]`, `F_y[i,j+1]`, `F_y[i,j]`. -/
def transReadsFy (g : Grid) (a b : ℤ) : Prop :=
  ∃ i j, (g.ilo - 2 ≤ i ∧ i ≤ g.ihi + 2) ∧ (g.jlo - 2 ≤ j ∧ j ≤ g.jhi + 2) ∧
    ((a = i - 1 ∧ b = j + 1) ∨ (a = i - 1 ∧ b = j) ∨
     (a = i ∧ b = j + 1) ∨ (a = i ∧ b = j))

/-- The set of `(i-index, j-index)` pairs at which the transverse-correction
loop reads `F_x`: `F_x[i+1,j-1]`, `F_x[i,j-1]`, `F_x[i+1,j]`, `F_x[i,j]`. -/
def transReadsFx (g : Grid) (a b : ℤ) : Prop :=
  ∃ i j, (g.ilo - 2 ≤ i ∧ i ≤ g.ihi + 2) ∧ (g.jlo - 2 ≤ j ∧ j ≤ g.jhi + 2) ∧
    ((a = i + 1 ∧ b = j - 1) ∨ (a = i ∧ b = j - 1) ∨
     (a = i + 1 ∧ b = j) ∨ (a = i ∧ b = j))

/-!
## Which arrays the flux routines write

Every mutating statement of the two routines (numpy subscript assignment or
in-place `+=` through a view) is listed here with its target array.  In
`unsplitFluxes` the targets are the component assignments to
`U_xl`/`U_xr` (lines 239–249), `U_yl`/`U_yr` (lines 287–297) and the
transverse-correction loop writes to the same four arrays (lines 384–394).
In `compressible_rk/fluxes.py` the targets are `ldx`/`ldy` (lines 147–148),
`V_l`/`V_r` (lines 165–166 and 184–185) and `F_x`/`F_y` (lines 244–249).
All are freshly allocated scratch arrays; the conserved solution arrays
obtained from the data object (`getVarPtr`/`get_var`, lines 154–157 and
113–116) are never assignment targets.
-/

/-- Names of the arrays in play in the two flux routines. -/
inductive VarName where
  | density | xmomentum | ymomentum | energy
  | Uxl | Uxr | Uyl | Uyr
  | ldxArr | ldyArr | VlArr | VrArr | FxArr | FyArr
  deriving DecidableEq

/-- Targets of the mutating statements of `unsplitFluxes`
(lines 239–249, 287–297, 384–394). -/
def unsplitMutatedArrays : List VarName := [.Uxl, .Uxr, .Uyl, .Uyr]

/-- Targets of the mutating statements of the `compressible_rk` `fluxes`
routine (lines 147–148, 165–166, 184–185, 244–249). -/
def rkMutatedArrays : List VarName :=
  [.ldxArr, .ldyArr, .VlArr, .VrArr, .FxArr, .FyArr]

/-- The conserved solution arrays owned by the caller's data object. -/
def conservedInputs : List VarName := [.density, .xmomentum, .ymomentum, .energy]

/-- `unsplitFluxes` run against the caller's data object: the routine reads
the four conserved arrays out of the store (`getVarPtr`, lines 154–157) and
returns the store unchanged together with the fluxes — no statement assigns
through the fetched references. -/
def unsplitFluxesData (C : Collab) (g : Grid) (gamma dt : ℝ)
    (store : VarName → SArr) : (VarName → SArr) × Arr × Arr :=
  (store, unsplitFluxes C g gamma dt
    (store .density) (store .xmomentum) (store .ymomentum) (store .energy))

/-!
## The `compressible_rk` `fluxes` routine
(`compressible_rk/fluxes.py`, lines 73–253.)

External collaborators (`comp.cons_to_prim`, `mesh.reconstruction`,
`interface_f.riemann_hllc` / `riemann_cgf`, `interface_f.artificial_viscosity`
and the `ArrayIndexer` buffered views) are parameters; `comp.prim_to_cons` and
the `ArrayIndexer` regions with a scalar buffer are modelled from the spec.
-/

/-- The external collaborators consumed by the `compressible_rk` `fluxes`
routine.  `bufRegion21` is the cell region selected by the `ArrayIndexer`
view with buffer `b = (2,1)` used in the artificial-viscosity pass — its
exact extent is internal to the (external) `ArrayIndexer` collaborator, so it
is kept abstract. -/
structure RkCollab where
  consToPrim : Arr → Arr
  flatten : ℕ → Arr → SArr
  flattenMultid : Arr → SArr → SArr → SArr
  limit : SArr → ℕ → ℕ → SArr
  riemannHllc : ℕ → Bool → Bool → Arr → Arr → Arr
  riemannCgf : ℕ → Bool → Bool → Arr → Arr → Arr
  avisc : ℝ → SArr → SArr → SArr × SArr
  bufRegion21 : ℤ → ℤ → Bool

/-- Modelled from the spec: the cell region covered by the `ArrayIndexer`
view `.v(buf=2)` (the `mesh.array_indexer` module is not under `src/`).
Spec §3: the grid has interior bounds `ilo..ihi`, `jlo..jhi` inside a
uniform halo, and the predictor works on "each interior cell (with a 2-cell
buffer beyond the update region)" (§4.4), i.e. the interior extended by `b`
cells on each side. -/
def inVBuf (g : Grid) (b i j : ℤ) : Prop :=
  g.ilo - b ≤ i ∧ i ≤ g.ihi + b ∧ g.jlo - b ≤ j ∧ j ≤ g.jhi + b

instance (g : Grid) (b i j : ℤ) : Decidable (inVBuf g b i j) := by
  unfold inVBuf
  infer_instance

/-- The x-sweep interface-state writes (lines 164–166): over the 2-buffered
region, `V_l.ip(1)` receives `q + 0.5 ldx` shifted one column up and `V_r`
receives `q - 0.5 ldx` in place; the arrays start as zeroed scratch.  Returns
the pair after the x sweep. -/
def rkStatesX (g : Grid) (q ldx : Arr) : StatesPair where
  Vl := fun i j n =>
    if n < 4 ∧ inVBuf g 2 (i - 1) j then q (i - 1) j n + 0.5 * ldx (i - 1) j n
    else 0
  Vr := fun i j n =>
    if n < 4 ∧ inVBuf g 2 i j then q i j n - 0.5 * ldx i j n
    else 0

/-- The y-sweep interface-state writes (lines 183–185), overwriting the
x-sweep contents in place: `V_l.jp(1)` receives `q + 0.5 ldy` shifted one row
up and `V_r` receives `q - 0.5 ldy` in place. -/
def rkStatesY (g : Grid) (q ldy : Arr) (s : StatesPair) : StatesPair where
  Vl := fun i j n =>
    if n < 4 ∧ inVBuf g 2 i (j - 1) then q i (j - 1) n + 0.5 * ldy i (j - 1) n
    else s.Vl i j n
  Vr := fun i j n =>
    if n < 4 ∧ inVBuf g 2 i j then q i j n - 0.5 * ldy i j n
    else s.Vr i j n

/-- The flattening coefficient (lines 126–134): multidimensional flattening
when `use_flattening` is set, else the constant `1.0`. -/
def rkXi (R : RkCollab) (q : Arr) (useFlattening : Bool) : SArr :=
  if useFlattening then R.flattenMultid q (R.flatten 1 q) (R.flatten 2 q)
  else fun _ _ => 1

/-- The limited slopes in direction `idir` (lines 146–148):
`xi * reconstruction.limit(q[:,:,n], myg, idir, limiter)` per component. -/
def rkSlopes (R : RkCollab) (q : Arr) (xi : SArr) (idir limiter : ℕ) : Arr :=
  fun i j n => xi i j * R.limit (fun a b => q a b n) idir limiter i j

/-- The Riemann-solver dispatch (lines 201–208): `"HLLC"` and `"CGF"` map to
the two solvers; any other name is the fatal configuration error
`msg.fail("ERROR: Riemann solver undefined")`. -/
def rkRiemannFunc (R : RkCollab) (riemannName : String) :
    Option (ℕ → Bool → Bool → Arr → Arr → Arr) :=
  if riemannName = "HLLC" then some R.riemannHllc
  else if riemannName = "CGF" then some R.riemannCgf
  else none

/-- The `compressible_rk` `fluxes` routine (lines 73–253).  Inputs: the
conserved data array `U`, runtime parameters (`gamma`, `cvisc`, the Riemann
solver name, `use_flattening`, `limiter`) and the solid-wall flags.  The
result is the flux pair, or the fatal diagnostic for an unknown Riemann
solver name. -/
def rkFluxes (R : RkCollab) (g : Grid) (gamma cvisc : ℝ)
    (riemannName : String) (useFlattening : Bool) (limiter : ℕ)
    (solidXl solidXr solidYl solidYr : Bool) (U : Arr) :
    Except String (Arr × Arr) :=
  let q := R.consToPrim U
  let xi := rkXi R q useFlattening
  let ldx := rkSlopes R q xi 1 limiter
  let ldy := rkSlopes R q xi 2 limiter
  let sx := rkStatesX g q ldx
  let Uxl := primToCons gamma sx.Vl
  let Uxr := primToCons gamma sx.Vr
  let sy := rkStatesY g q ldy sx
  let Uyl := primToCons gamma sy.Vl
  let Uyr := primToCons gamma sy.Vr
  match rkRiemannFunc R riemannName with
  | none => Except.error "ERROR: Riemann solver undefined"
  | some f =>
    let Fx0 := f 1 solidXl solidXr Uxl Uxr
    let Fy0 := f 2 solidYl solidYr Uyl Uyr
    let av := R.avisc cvisc (fun i j => q i j 1) (fun i j => q i j 2)
    let Fx : Arr := fun i j n =>
      if n < 4 ∧ R.bufRegion21 i j then
        Fx0 i j n + av.1 i j * (U (i - 1) j n - U i j n)
      else Fx0 i j n
    let Fy : Arr := fun i j n =>
      if n < 4 ∧ R.bufRegion21 i j then
        Fy0 i j n + av.2 i j * (U i (j - 1) n - U i j n)
      else Fy0 i j n
    Except.ok (Fx, Fy)

/-- The normal fluxes produced by the Riemann solve in `rkFluxes`
(lines 210–218), before the artificial-viscosity pass. -/
def rkNormalFlux (R : RkCollab) (g : Grid) (gamma : ℝ)
    (f : ℕ → Bool → Bool → Arr → Arr → Arr) (useFlattening : Bool)
    (limiter : ℕ) (solidXl solidXr solidYl solidYr : Bool) (U : Arr) :
    Arr × Arr :=
  let q := R.consToPrim U
  let xi := rkXi R q useFlattening
  let ldx := rkSlopes R q xi 1 limiter
  let ldy := rkSlopes R q xi 2 limiter
  let sx := rkStatesX g q ldx
  let sy := rkStatesY g q ldy sx
  (f 1 solidXl solidXr (primToCons gamma sx.Vl) (primToCons gamma sx.Vr),
   f 2 solidYl solidYr (primToCons gamma sy.Vl) (primToCons gamma sy.Vr))

/-!
## Control-flow trace of the `compressible_rk` `fluxes` routine

The statement-order abstraction of `fluxes` (lines 104–253): primitive
derivation (118), optional flattening (128–132), limiting (146–148),
x interface states (164–166) and conserved transform (172–173), y interface
states (183–185) and conserved transform (191–192), the Riemann-solver name
check (201–208) which aborts via `msg.fail` on an unknown name, the two
Riemann solves (210–218), and the artificial-viscosity pass (228–249).
-/

/-- One step of the `fluxes` routine, in source order. -/
inductive REvent where
  | primDerive
  | flattenStep
  | limitStep
  | statesX
  | primToConsX
  | statesY
  | primToConsY
  | fail (msg : String)
  | riemannSolve
  | aviscStep
  deriving DecidableEq

/-- The sequence of steps `fluxes` performs, as a function of the Riemann
solver name and the flattening switch; `msg.fail` aborts the routine, so on
an unknown name the trace ends at the fail event. -/
def rkTrace (riemannName : String) (useFlattening : Bool) : List REvent :=
  [.primDerive] ++
  (if useFlattening then [.flattenStep] else []) ++
  [.limitStep, .statesX, .primToConsX, .statesY, .primToConsY] ++
  (if riemannName = "HLLC" ∨ riemannName = "CGF" then
    [.riemannSolve, .aviscStep]
  else
    [.fail "ERROR: Riemann solver undefined"])

/-- Is this event a per-cell computation (limiting or interface-state
construction)? -/
def isPerCellStep : REvent → Bool
  | .limitStep => true
  | .statesX => true
  | .statesY => true
  | _ => false

/-- Is this event the fatal configuration diagnostic? -/
def isFailStep : REvent → Bool
  | .fail _ => true
  | _ => false

/-- Does the trace reach a fatal diagnostic before performing any per-cell
computation? -/
def failsBeforePerCell : List REvent → Bool
  | [] => false
  | e :: rest =>
    if isFailStep e then true
    else if isPerCellStep e then false
    else failsBeforePerCell rest

/-- The x-flux after the artificial-viscosity pass (lines 240–249):
`F_x += avisco_x*(U(i-1,j) - U(i,j))` on the buffered region, per conserved
component. -/
def rkFinalFx (R : RkCollab) (g : Grid) (gamma cvisc : ℝ)
    (f : ℕ → Bool → Bool → Arr → Arr → Arr) (useFlat : Bool) (limiter : ℕ)
    (sxl sxr syl syr : Bool) (U : Arr) : Arr :=
  fun i j n =>
    if n < 4 ∧ R.bufRegion21 i j then
      (rkNormalFlux R g gamma f useFlat limiter sxl sxr syl syr U).1 i j n +
        (R.avisc cvisc (fun a b => R.consToPrim U a b 1)
          (fun a b => R.consToPrim U a b 2)).1 i j * (U (i - 1) j n - U i j n)
    else (rkNormalFlux R g gamma f useFlat limiter sxl sxr syl syr U).1 i j n

/-- The y-flux after the artificial-viscosity pass:
`F_y += avisco_y*(U(i,j-1) - U(i,j))`. -/
def rkFinalFy (R : RkCollab) (g : Grid) (gamma cvisc : ℝ)
    (f : ℕ → Bool → Bool → Arr → Arr → Arr) (useFlat : Bool) (limiter : ℕ)
    (sxl sxr syl syr : Bool) (U : Arr) : Arr :=
  fun i j n =>
    if n < 4 ∧ R.bufRegion21 i j then
      (rkNormalFlux R g gamma f useFlat limiter sxl sxr syl syr U).2 i j n +
        (R.avisc cvisc (fun a b => R.consToPrim U a b 1)
          (fun a b => R.consToPrim U a b 2)).2 i j * (U i (j - 1) n - U i j n)
    else (rkNormalFlux R g gamma f useFlat limiter sxl sxr syl syr U).2 i j n

/-- A concrete 1×1 grid with the minimum contractual `ng = 2` ghost layers
and unit spacings, used to instantiate the theorems. -/
def wGrid : Grid := ⟨1, 1, 2, 1, 1⟩

/-- The constant-one scalar field. -/
def wS : SArr := fun _ _ => 1

/-- The constant-zero scalar field. -/
def wZ : SArr := fun _ _ => 0

/-- The constant-one vector field. -/
def wA : Arr := fun _ _ _ => 1

/-- A concrete instantiation of the `unsplitFluxes` collaborators. -/
def wC : Collab where
  flatten := fun _ _ _ => wS
  flattenMultid := fun _ _ _ => wS
  limit4 := fun _ _ => wS
  states := fun _ _ _ _ _ _ => zerosPair
  riemann := fun _ _ _ => wA

/-- A concrete instantiation of the `compressible_rk` collaborators. -/
def wR : RkCollab where
  consToPrim := fun _ => wA
  flatten := fun _ _ => wS
  flattenMultid := fun _ _ _ => wS
  limit := fun _ _ _ => wS
  riemannHllc := fun _ _ _ _ _ => wA
  riemannCgf := fun _ _ _ _ _ => wA
  avisc := fun _ _ _ => (wS, wS)
  bufRegion21 := fun _ _ => true

theorem mem_ilist {a lo : ℤ} {k : ℕ} : a ∈ ilist lo k ↔ lo ≤ a ∧ a < lo + k := by
  induction k generalizing lo with
  | zero => simp [ilist]
  | succ k ih =>
    simp [ilist, ih]
    omega

theorem mem_intRange {a lo hi : ℤ} : a ∈ intRange lo hi ↔ lo ≤ a ∧ a ≤ hi := by
  unfold intRange
  rw [mem_ilist]
  omega

theorem transCell_spec (dt dx dy : ℝ) (Fx Fy : Arr) (i j : ℤ) (n : ℕ)
    (s : TransState) (i' j' : ℤ) (n' : ℕ) :
    ((transCell dt dx dy Fx Fy i j n s).xl i' j' n' =
      if i' = i ∧ j' = j ∧ n' = n then s.xl i' j' n' - dXL dt dy Fy i' j' n'
      else s.xl i' j' n') ∧
    ((transCell dt dx dy Fx Fy i j n s).xr i' j' n' =
      if i' = i ∧ j' = j ∧ n' = n then s.xr i' j' n' - dXR dt dy Fy i' j' n'
      else s.xr i' j' n') ∧
    ((transCell dt dx dy Fx Fy i j n s).yl i' j' n' =
      if i' = i ∧ j' = j ∧ n' = n then s.yl i' j' n' - dYL dt dx Fx i' j' n'
      else s.yl i' j' n') ∧
    ((transCell dt dx dy Fx Fy i j n s).yr i' j' n' =
      if i' = i ∧ j' = j ∧ n' = n then s.yr i' j' n' - dYR dt dx Fx i' j' n'
      else s.yr i' j' n') := by
  unfold transCell updA dXL dXR dYL dYR
  refine ⟨?_, ?_, ?_, ?_⟩ <;>
  · simp only
    split
    · rename_i h
      obtain ⟨h1, h2, h3⟩ := h
      subst h1; subst h2; subst h3
      rfl
    · rfl

theorem transNAux_spec (dt dx dy : ℝ) (Fx Fy : Arr) (i j : ℤ) (k : ℕ)
    (s : TransState) (i' j' : ℤ) (n' : ℕ) :
    ((transNAux dt dx dy Fx Fy i j k s).xl i' j' n' =
      if i' = i ∧ j' = j ∧ n' < k then s.xl i' j' n' - dXL dt dy Fy i' j' n'
      else s.xl i' j' n') ∧
    ((transNAux dt dx dy Fx Fy i j k s).xr i' j' n' =
      if i' = i ∧ j' = j ∧ n' < k then s.xr i' j' n' - dXR dt dy Fy i' j' n'
      else s.xr i' j' n') ∧
    ((transNAux dt dx dy Fx Fy i j k s).yl i' j' n' =
      if i' = i ∧ j' = j ∧ n' < k then s.yl i' j' n' - dYL dt dx Fx i' j' n'
      else s.yl i' j' n') ∧
    ((transNAux dt dx dy Fx Fy i j k s).yr i' j' n' =
      if i' = i ∧ j' = j ∧ n' < k then s.yr i' j' n' - dYR dt dx Fx i' j' n'
      else s.yr i' j' n') := by
  induction k generalizing s with
  | zero =>
    simp [transNAux]
  | succ k ih =>
    have hfold : transNAux dt dx dy Fx Fy i j (k + 1) s =
        transCell dt dx dy Fx Fy i j k (transNAux dt dx dy Fx Fy i j k s) := by
      unfold transNAux
      rw [List.range_succ, List.foldl_append]
      rfl
    rw [hfold]
    obtain ⟨hxl, hxr, hyl, hyr⟩ := ih s
    obtain ⟨cxl, cxr, cyl, cyr⟩ :=
      transCell_spec dt dx dy Fx Fy i j k (transNAux dt dx dy Fx Fy i j k s) i' j' n'
    refine ⟨?_, ?_, ?_, ?_⟩
    · rw [cxl, hxl]
      split_ifs <;> first | rfl | omega
    · rw [cxr, hxr]
      split_ifs <;> first | rfl | omega
    · rw [cyl, hyl]
      split_ifs <;> first | rfl | omega
    · rw [cyr, hyr]
      split_ifs <;> first | rfl | omega

theorem transN_spec (dt dx dy : ℝ) (Fx Fy : Arr) (i j : ℤ)
    (s : TransState) (i' j' : ℤ) (n' : ℕ) :
    ((transN dt dx dy Fx Fy i j s).xl i' j' n' =
      if i' = i ∧ j' = j ∧ n' < 4 then s.xl i' j' n' - dXL dt dy Fy i' j' n'
      else s.xl i' j' n') ∧
    ((transN dt dx dy Fx Fy i j s).xr i' j' n' =
      if i' = i ∧ j' = j ∧ n' < 4 then s.xr i' j' n' - dXR dt dy Fy i' j' n'
      else s.xr i' j' n') ∧
    ((transN dt dx dy Fx Fy i j s).yl i' j' n' =
      if i' = i ∧ j' = j ∧ n' < 4 then s.yl i' j' n' - dYL dt dx Fx i' j' n'
      else s.yl i' j' n') ∧
    ((transN dt dx dy Fx Fy i j s).yr i' j' n' =
      if i' = i ∧ j' = j ∧ n' < 4 then s.yr i' j' n' - dYR dt dx Fx i' j' n'
      else s.yr i' j' n') :=
  transNAux_spec dt dx dy Fx Fy i j 4 s i' j' n'

theorem transIAux_spec (g : Grid) (dt : ℝ) (Fx Fy : Arr) (j lo : ℤ) (k : ℕ)
    (s : TransState) (i' j' : ℤ) (n' : ℕ) :
    ((transIAux g dt Fx Fy j lo k s).xl i' j' n' =
      if lo ≤ i' ∧ i' < lo + k ∧ j' = j ∧ n' < 4 then
        s.xl i' j' n' - dXL dt g.dy Fy i' j' n' else s.xl i' j' n') ∧
    ((transIAux g dt Fx Fy j lo k s).xr i' j' n' =
      if lo ≤ i' ∧ i' < lo + k ∧ j' = j ∧ n' < 4 then
        s.xr i' j' n' - dXR dt g.dy Fy i' j' n' else s.xr i' j' n') ∧
    ((transIAux g dt Fx Fy j lo k s).yl i' j' n' =
      if lo ≤ i' ∧ i' < lo + k ∧ j' = j ∧ n' < 4 then
        s.yl i' j' n' - dYL dt g.dx Fx i' j' n' else s.yl i' j' n') ∧
    ((transIAux g dt Fx Fy j lo k s).yr i' j' n' =
      if lo ≤ i' ∧ i' < lo + k ∧ j' = j ∧ n' < 4 then
        s.yr i' j' n' - dYR dt g.dx Fx i' j' n' else s.yr i' j' n') := by
  induction k generalizing lo s with
  | zero =>
    simp only [transIAux, ilist, List.foldl_nil]
    refine ⟨?_, ?_, ?_, ?_⟩ <;> · split_ifs <;> first | rfl | omega
  | succ k ih =>
    have hfold : transIAux g dt Fx Fy j lo (k + 1) s =
        transIAux g dt Fx Fy j (lo + 1) k (transN dt g.dx g.dy Fx Fy lo j s) := rfl
    rw [hfold]
    obtain ⟨hxl, hxr, hyl, hyr⟩ :=
      ih (lo + 1) (transN dt g.dx g.dy Fx Fy lo j s)
    obtain ⟨cxl, cxr, cyl, cyr⟩ := transN_spec dt g.dx g.dy Fx Fy lo j s i' j' n'
    refine ⟨?_, ?_, ?_, ?_⟩
    · rw [hxl, cxl]
      split_ifs <;> first | rfl | omega
    · rw [hxr, cxr]
      split_ifs <;> first | rfl | omega
    · rw [hyl, cyl]
      split_ifs <;> first | rfl | omega
    · rw [hyr, cyr]
      split_ifs <;> first | rfl | omega

theorem transI_eq_aux (g : Grid) (dt : ℝ) (Fx Fy : Arr) (j : ℤ) (s : TransState) :
    transI g dt Fx Fy j s =
      transIAux g dt Fx Fy j (g.ilo - 2) (g.ihi + 2 + 1 - (g.ilo - 2)).toNat s := rfl

theorem transI_spec (g : Grid) (dt : ℝ) (Fx Fy : Arr) (j : ℤ)
    (s : TransState) (i' j' : ℤ) (n' : ℕ) :
    ((transI g dt Fx Fy j s).xl i' j' n' =
      if g.ilo - 2 ≤ i' ∧ i' ≤ g.ihi + 2 ∧ j' = j ∧ n' < 4 then
        s.xl i' j' n' - dXL dt g.dy Fy i' j' n' else s.xl i' j' n') ∧
    ((transI g dt Fx Fy j s).xr i' j' n' =
      if g.ilo - 2 ≤ i' ∧ i' ≤ g.ihi + 2 ∧ j' = j ∧ n' < 4 then
        s.xr i' j' n' - dXR dt g.dy Fy i' j' n' else s.xr i' j' n') ∧
    ((transI g dt Fx Fy j s).yl i' j' n' =
      if g.ilo - 2 ≤ i' ∧ i' ≤ g.ihi + 2 ∧ j' = j ∧ n' < 4 then
        s.yl i' j' n' - dYL dt g.dx Fx i' j' n' else s.yl i' j' n') ∧
    ((transI g dt Fx Fy j s).yr i' j' n' =
      if g.ilo - 2 ≤ i' ∧ i' ≤ g.ihi + 2 ∧ j' = j ∧ n' < 4 then
        s.yr i' j' n' - dYR dt g.dx Fx i' j' n' else s.yr i' j' n') := by
  rw [transI_eq_aux]
  obtain ⟨hxl, hxr, hyl, hyr⟩ :=
    transIAux_spec g dt Fx Fy j (g.ilo - 2)
      (g.ihi + 2 + 1 - (g.ilo - 2)).toNat s i' j' n'
  have hbound : g.ilo - 2 + ((g.ihi + 2 + 1 - (g.ilo - 2)).toNat : ℤ) =
      max (g.ihi + 3) (g.ilo - 2) := by
    omega
  refine ⟨?_, ?_, ?_, ?_⟩
  · rw [hxl]; split_ifs <;> first | rfl | omega
  · rw [hxr]; split_ifs <;> first | rfl | omega
  · rw [hyl]; split_ifs <;> first | rfl | omega
  · rw [hyr]; split_ifs <;> first | rfl | omega

theorem transJAux_spec (g : Grid) (dt : ℝ) (Fx Fy : Arr) (lo : ℤ) (k : ℕ)
    (s : TransState) (i' j' : ℤ) (n' : ℕ) :
    ((transJAux g dt Fx Fy lo k s).xl i' j' n' =
      if g.ilo - 2 ≤ i' ∧ i' ≤ g.ihi + 2 ∧ lo ≤ j' ∧ j' < lo + k ∧ n' < 4 then
        s.xl i' j' n' - dXL dt g.dy Fy i' j' n' else s.xl i' j' n') ∧
    ((transJAux g dt Fx Fy lo k s).xr i' j' n' =
      if g.ilo - 2 ≤ i' ∧ i' ≤ g.ihi + 2 ∧ lo ≤ j' ∧ j' < lo + k ∧ n' < 4 then
        s.xr i' j' n' - dXR dt g.dy Fy i' j' n' else s.xr i' j' n') ∧
    ((transJAux g dt Fx Fy lo k s).yl i' j' n' =
      if g.ilo - 2 ≤ i' ∧ i' ≤ g.ihi + 2 ∧ lo ≤ j' ∧ j' < lo + k ∧ n' < 4 then
        s.yl i' j' n' - dYL dt g.dx Fx i' j' n' else s.yl i' j' n') ∧
    ((transJAux g dt Fx Fy lo k s).yr i' j' n' =
      if g.ilo - 2 ≤ i' ∧ i' ≤ g.ihi + 2 ∧ lo ≤ j' ∧ j' < lo + k ∧ n' < 4 then
        s.yr i' j' n' - dYR dt g.dx Fx i' j' n' else s.yr i' j' n') := by
  induction k generalizing lo s with
  | zero =>
    simp only [transJAux, ilist, List.foldl_nil]
    refine ⟨?_, ?_, ?_, ?_⟩ <;> · split_ifs <;> first | rfl | omega
  | succ k ih =>
    have hfold : transJAux g dt Fx Fy lo (k + 1) s =
        transJAux g dt Fx Fy (lo + 1) k (transI g dt Fx Fy lo s) := rfl
    rw [hfold]
    obtain ⟨hxl, hxr, hyl, hyr⟩ := ih (lo + 1) (transI g dt Fx Fy lo s)
    obtain ⟨cxl, cxr, cyl, cyr⟩ := transI_spec g dt Fx Fy lo s i' j' n'
    refine ⟨?_, ?_, ?_, ?_⟩
    · rw [hxl, cxl]
      split_ifs <;> first | rfl | omega
    · rw [hxr, cxr]
      split_ifs <;> first | rfl | omega
    · rw [hyl, cyl]
      split_ifs <;> first | rfl | omega
    · rw [hyr, cyr]
      split_ifs <;> first | rfl | omega

theorem transLoop_spec (g : Grid) (dt : ℝ) (Fx Fy : Arr)
    (s : TransState) (i' j' : ℤ) (n' : ℕ) :
    ((transLoop g dt Fx Fy s).xl i' j' n' =
      if g.ilo - 2 ≤ i' ∧ i' ≤ g.ihi + 2 ∧ g.jlo - 2 ≤ j' ∧ j' ≤ g.jhi + 2 ∧ n' < 4 then
        s.xl i' j' n' - dXL dt g.dy Fy i' j' n' else s.xl i' j' n') ∧
    ((transLoop g dt Fx Fy s).xr i' j' n' =
      if g.ilo - 2 ≤ i' ∧ i' ≤ g.ihi + 2 ∧ g.jlo - 2 ≤ j' ∧ j' ≤ g.jhi + 2 ∧ n' < 4 then
        s.xr i' j' n' - dXR dt g.dy Fy i' j' n' else s.xr i' j' n') ∧
    ((transLoop g dt Fx Fy s).yl i' j' n' =
      if g.ilo - 2 ≤ i' ∧ i' ≤ g.ihi + 2 ∧ g.jlo - 2 ≤ j' ∧ j' ≤ g.jhi + 2 ∧ n' < 4 then
        s.yl i' j' n' - dYL dt g.dx Fx i' j' n' else s.yl i' j' n') ∧
    ((transLoop g dt Fx Fy s).yr i' j' n' =
      if g.ilo - 2 ≤ i' ∧ i' ≤ g.ihi + 2 ∧ g.jlo - 2 ≤ j' ∧ j' ≤ g.jhi + 2 ∧ n' < 4 then
        s.yr i' j' n' - dYR dt g.dx Fx i' j' n' else s.yr i' j' n') := by
  have heq : transLoop g dt Fx Fy s =
      transJAux g dt Fx Fy (g.jlo - 2) (g.jhi + 2 + 1 - (g.jlo - 2)).toNat s := rfl
  rw [heq]
  obtain ⟨hxl, hxr, hyl, hyr⟩ :=
    transJAux_spec g dt Fx Fy (g.jlo - 2)
      (g.jhi + 2 + 1 - (g.jlo - 2)).toNat s i' j' n'
  have hbound : g.jlo - 2 + ((g.jhi + 2 + 1 - (g.jlo - 2)).toNat : ℤ) =
      max (g.jhi + 3) (g.jlo - 2) := by
    omega
  refine ⟨?_, ?_, ?_, ?_⟩
  · rw [hxl]; split_ifs <;> first | rfl | omega
  · rw [hxr]; split_ifs <;> first | rfl | omega
  · rw [hyl]; split_ifs <;> first | rfl | omega
  · rw [hyr]; split_ifs <;> first | rfl | omega

theorem incrPairAux_spec (iL jL iR jR : ℤ) (addL addR : ℕ → ℝ) (k : ℕ)
    (s : StatesPair) : ∀ (a b : ℤ) (m' : ℕ),
    ((incrPairAux iL jL iR jR addL addR k s).Vl a b m' =
      if a = iL ∧ b = jL ∧ m' < k then s.Vl a b m' + addL m'
      else s.Vl a b m') ∧
    ((incrPairAux iL jL iR jR addL addR k s).Vr a b m' =
      if a = iR ∧ b = jR ∧ m' < k then s.Vr a b m' + addR m'
      else s.Vr a b m') := by
  induction k generalizing s with
  | zero =>
    intro a b m'
    simp only [incrPairAux, List.range_zero, List.foldl_nil]
    constructor <;> · split_ifs <;> first | rfl | omega
  | succ k ih =>
    intro a b m'
    have hfoldL : (incrPairAux iL jL iR jR addL addR (k + 1) s).Vl =
        updA (incrPairAux iL jL iR jR addL addR k s).Vl iL jL k
          ((incrPairAux iL jL iR jR addL addR k s).Vl iL jL k + addL k) := by
      unfold incrPairAux
      rw [List.range_succ, List.foldl_append]
      rfl
    have hfoldR : (incrPairAux iL jL iR jR addL addR (k + 1) s).Vr =
        updA (incrPairAux iL jL iR jR addL addR k s).Vr iR jR k
          ((incrPairAux iL jL iR jR addL addR k s).Vr iR jR k + addR k) := by
      unfold incrPairAux
      rw [List.range_succ, List.foldl_append]
      rfl
    constructor
    · rw [hfoldL]
      show (if a = iL ∧ b = jL ∧ m' = k
            then (incrPairAux iL jL iR jR addL addR k s).Vl iL jL k + addL k
            else (incrPairAux iL jL iR jR addL addR k s).Vl a b m') = _
      by_cases h : a = iL ∧ b = jL ∧ m' = k
      · obtain ⟨h1, h2, h3⟩ := h
        subst h1; subst h2; subst h3
        rw [if_pos ⟨rfl, rfl, rfl⟩, (ih s a b m').1]
        split_ifs <;> first | rfl | omega
      · rw [if_neg h, (ih s a b m').1]
        split_ifs <;> first | rfl | omega
    · rw [hfoldR]
      show (if a = iR ∧ b = jR ∧ m' = k
            then (incrPairAux iL jL iR jR addL addR k s).Vr iR jR k + addR k
            else (incrPairAux iL jL iR jR addL addR k s).Vr a b m') = _
      by_cases h : a = iR ∧ b = jR ∧ m' = k
      · obtain ⟨h1, h2, h3⟩ := h
        subst h1; subst h2; subst h3
        rw [if_pos ⟨rfl, rfl, rfl⟩, (ih s a b m').2]
        split_ifs <;> first | rfl | omega
      · rw [if_neg h, (ih s a b m').2]
        split_ifs <;> first | rfl | omega

theorem statesZone_spec (idir : ℕ) (gamma dtdx : ℝ)
    (r u v p ldelta_r ldelta_u ldelta_v ldelta_p : SArr)
    (i j : ℤ) (s : StatesPair) (a b : ℤ) (m' : ℕ) :
    ((statesZone idir gamma dtdx r u v p
        ldelta_r ldelta_u ldelta_v ldelta_p i j s).Vl a b m' =
      if a = i + offI idir ∧ b = j + offJ idir ∧ m' < 4 then
        zoneL idir gamma dtdx r u v p ldelta_r ldelta_u ldelta_v ldelta_p i j m'
      else s.Vl a b m') ∧
    ((statesZone idir gamma dtdx r u v p
        ldelta_r ldelta_u ldelta_v ldelta_p i j s).Vr a b m' =
      if a = i ∧ b = j ∧ m' < 4 then
        zoneR idir gamma dtdx r u v p ldelta_r ldelta_u ldelta_v ldelta_p i j m'
      else s.Vr a b m') := by
  unfold statesZone
  obtain ⟨hl, hr⟩ := incrPairAux_spec (i + offI idir) (j + offJ idir) i j
    (fun m => ∑ k ∈ Finset.range 4,
      zBetal idir gamma dtdx (zV r u v p i j)
        (zDV ldelta_r ldelta_u ldelta_v ldelta_p i j) k *
      zRvec idir gamma (zV r u v p i j) k m)
    (fun m => ∑ k ∈ Finset.range 4,
      zBetar idir gamma dtdx (zV r u v p i j)
        (zDV ldelta_r ldelta_u ldelta_v ldelta_p i j) k *
      zRvec idir gamma (zV r u v p i j) k m)
    4 (refPair idir gamma dtdx r u v p ldelta_r ldelta_u ldelta_v ldelta_p i j s)
    a b m'
  rw [hl, hr]
  unfold refPair zoneL zoneR
  constructor <;> · simp only; split_ifs <;> rfl

theorem statesIAux_spec (idir : ℕ) (gamma dtdx : ℝ)
    (r u v p ldelta_r ldelta_u ldelta_v ldelta_p : SArr)
    (j lo : ℤ) (k : ℕ) (s : StatesPair) (a b : ℤ) (m' : ℕ) :
    ((statesIAux idir gamma dtdx r u v p
        ldelta_r ldelta_u ldelta_v ldelta_p j lo k s).Vl a b m' =
      if lo ≤ a - offI idir ∧ a - offI idir < lo + k ∧ b = j + offJ idir ∧ m' < 4 then
        zoneL idir gamma dtdx r u v p ldelta_r ldelta_u ldelta_v ldelta_p
          (a - offI idir) (b - offJ idir) m'
      else s.Vl a b m') ∧
    ((statesIAux idir gamma dtdx r u v p
        ldelta_r ldelta_u ldelta_v ldelta_p j lo k s).Vr a b m' =
      if lo ≤ a ∧ a < lo + k ∧ b = j ∧ m' < 4 then
        zoneR idir gamma dtdx r u v p ldelta_r ldelta_u ldelta_v ldelta_p a b m'
      else s.Vr a b m') := by
  induction k generalizing lo s with
  | zero =>
    simp only [statesIAux, ilist, List.foldl_nil]
    constructor <;> · split_ifs <;> first | rfl | omega
  | succ k ih =>
    have hfold : statesIAux idir gamma dtdx r u v p
        ldelta_r ldelta_u ldelta_v ldelta_p j lo (k + 1) s =
        statesIAux idir gamma dtdx r u v p
          ldelta_r ldelta_u ldelta_v ldelta_p j (lo + 1) k
          (statesZone idir gamma dtdx r u v p
            ldelta_r ldelta_u ldelta_v ldelta_p lo j s) := rfl
    rw [hfold]
    obtain ⟨hl, hr⟩ := ih (lo + 1)
      (statesZone idir gamma dtdx r u v p
        ldelta_r ldelta_u ldelta_v ldelta_p lo j s)
    obtain ⟨cl, cr⟩ := statesZone_spec idir gamma dtdx r u v p
      ldelta_r ldelta_u ldelta_v ldelta_p lo j s a b m'
    constructor
    · rw [hl, cl]
      by_cases h : a = lo + offI idir ∧ b = j + offJ idir ∧ m' < 4
      · have ha : a - offI idir = lo := by omega
        have hb : b - offJ idir = j := by
          omega
        rw [ha, hb]
        split_ifs <;> first | rfl | omega
      · split_ifs <;> first | rfl | omega
    · rw [hr, cr]
      by_cases h : a = lo ∧ b = j ∧ m' < 4
      · obtain ⟨h1, h2, h3⟩ := h
        subst h1; subst h2
        split_ifs <;> first | rfl | omega
      · split_ifs <;> first | rfl | omega

theorem statesJAux_spec (g : Grid) (idir : ℕ) (gamma dtdx : ℝ)
    (r u v p ldelta_r ldelta_u ldelta_v ldelta_p : SArr)
    (lo : ℤ) (k : ℕ) (s : StatesPair) (a b : ℤ) (m' : ℕ) :
    ((statesJAux g idir gamma dtdx r u v p
        ldelta_r ldelta_u ldelta_v ldelta_p lo k s).Vl a b m' =
      if g.ilo - 2 ≤ a - offI idir ∧ a - offI idir ≤ g.ihi + 2 ∧
          lo ≤ b - offJ idir ∧ b - offJ idir < lo + k ∧ m' < 4 then
        zoneL idir gamma dtdx r u v p ldelta_r ldelta_u ldelta_v ldelta_p
          (a - offI idir) (b - offJ idir) m'
      else s.Vl a b m') ∧
    ((statesJAux g idir gamma dtdx r u v p
        ldelta_r ldelta_u ldelta_v ldelta_p lo k s).Vr a b m' =
      if g.ilo - 2 ≤ a ∧ a ≤ g.ihi + 2 ∧ lo ≤ b ∧ b < lo + k ∧ m' < 4 then
        zoneR idir gamma dtdx r u v p ldelta_r ldelta_u ldelta_v ldelta_p a b m'
      else s.Vr a b m') := by
  induction k generalizing lo s with
  | zero =>
    simp only [statesJAux, ilist, List.foldl_nil]
    constructor <;> · split_ifs <;> first | rfl | omega
  | succ k ih =>
    have hfold : statesJAux g idir gamma dtdx r u v p
        ldelta_r ldelta_u ldelta_v ldelta_p lo (k + 1) s =
        statesJAux g idir gamma dtdx r u v p
          ldelta_r ldelta_u ldelta_v ldelta_p (lo + 1) k
          (statesIAux idir gamma dtdx r u v p
            ldelta_r ldelta_u ldelta_v ldelta_p lo (g.ilo - 2)
            (g.ihi + 2 + 1 - (g.ilo - 2)).toNat s) := rfl
    rw [hfold]
    obtain ⟨hl, hr⟩ := ih (lo + 1)
      (statesIAux idir gamma dtdx r u v p
        ldelta_r ldelta_u ldelta_v ldelta_p lo (g.ilo - 2)
        (g.ihi + 2 + 1 - (g.ilo - 2)).toNat s)
    obtain ⟨cl, cr⟩ := statesIAux_spec idir gamma dtdx r u v p
      ldelta_r ldelta_u ldelta_v ldelta_p lo (g.ilo - 2)
      (g.ihi + 2 + 1 - (g.ilo - 2)).toNat s a b m'
    have hcnt : (g.ilo - 2) + ((g.ihi + 2 + 1 - (g.ilo - 2)).toNat : ℤ) =
        max (g.ihi + 3) (g.ilo - 2) := by omega
    constructor
    · rw [hl, cl]
      split_ifs <;> first | rfl | omega
    · rw [hr, cr]
      split_ifs <;> first | rfl | omega

theorem interfaceStates_spec (idir : ℕ) (g : Grid) (gamma dt : ℝ)
    (r u v p ldelta_r ldelta_u ldelta_v ldelta_p : SArr) (a b : ℤ) (m' : ℕ) :
    ((interfaceStates idir g gamma dt r u v p
        ldelta_r ldelta_u ldelta_v ldelta_p).Vl a b m' =
      if g.ilo - 2 ≤ a - offI idir ∧ a - offI idir ≤ g.ihi + 2 ∧
          g.jlo - 2 ≤ b - offJ idir ∧ b - offJ idir ≤ g.jhi + 2 ∧ m' < 4 then
        zoneL idir gamma (if idir = 1 then dt / g.dx else dt / g.dy)
          r u v p ldelta_r ldelta_u ldelta_v ldelta_p
          (a - offI idir) (b - offJ idir) m'
      else 0) ∧
    ((interfaceStates idir g gamma dt r u v p
        ldelta_r ldelta_u ldelta_v ldelta_p).Vr a b m' =
      if g.ilo - 2 ≤ a ∧ a ≤ g.ihi + 2 ∧ g.jlo - 2 ≤ b ∧ b ≤ g.jhi + 2 ∧ m' < 4 then
        zoneR idir gamma (if idir = 1 then dt / g.dx else dt / g.dy)
          r u v p ldelta_r ldelta_u ldelta_v ldelta_p a b m'
      else 0) := by
  unfold interfaceStates
  obtain ⟨hl, hr⟩ := statesJAux_spec g idir gamma
    (if idir = 1 then dt / g.dx else dt / g.dy)
    r u v p ldelta_r ldelta_u ldelta_v ldelta_p
    (g.jlo - 2) (g.jhi + 2 + 1 - (g.jlo - 2)).toNat zerosPair a b m'
  have hcnt : (g.jlo - 2) + ((g.jhi + 2 + 1 - (g.jlo - 2)).toNat : ℤ) =
      max (g.jhi + 3) (g.jlo - 2) := by omega
  constructor
  · rw [hl]
    show _ = if _ then _ else (0:ℝ)
    split_ifs <;> first | rfl | omega
  · rw [hr]
    show _ = if _ then _ else (0:ℝ)
    split_ifs <;> first | rfl | omega

/-!
## Claim theorems
-/

/-- C1: in `unsplitFluxes`, for every cell `(i,j)` with
`ilo-2 ≤ i ≤ ihi+2`, `jlo-2 ≤ j ≤ jhi+2` and every conserved component `n`,
the transverse correction updates the four directional conserved interface
states exactly as stated: `U_xl[i,j,n]` decreases by
`0.5·dt/dy·(F_y[i-1,j+1,n] − F_y[i-1,j,n])`, `U_xr[i,j,n]` by
`0.5·dt/dy·(F_y[i,j+1,n] − F_y[i,j,n])`, `U_yl[i,j,n]` by
`0.5·dt/dx·(F_x[i+1,j-1,n] − F_x[i,j-1,n])` and `U_yr[i,j,n]` by
`0.5·dt/dx·(F_x[i+1,j,n] − F_x[i,j,n])`, where the fluxes are the transverse
fluxes from the first Riemann invocation. -/
theorem claim_C1_transverse_correction (C : Collab) (g : Grid) (gamma dt : ℝ)
    (dens xmom ymom ener : SArr) (i j : ℤ) (n : ℕ)
    (h : g.ilo - 2 ≤ i ∧ i ≤ g.ihi + 2 ∧ g.jlo - 2 ≤ j ∧ j ≤ g.jhi + 2 ∧ n < 4) :
    ((unsplitCorrected C g gamma dt dens xmom ymom ener).xl i j n =
      (unsplitPreStates C g gamma dt dens xmom ymom ener).xl i j n -
        0.5 * dt / g.dy *
          (unsplitTransFy C g gamma dt dens xmom ymom ener (i - 1) (j + 1) n -
           unsplitTransFy C g gamma dt dens xmom ymom ener (i - 1) j n)) ∧
    ((unsplitCorrected C g gamma dt dens xmom ymom ener).xr i j n =
      (unsplitPreStates C g gamma dt dens xmom ymom ener).xr i j n -
        0.5 * dt / g.dy *
          (unsplitTransFy C g gamma dt dens xmom ymom ener i (j + 1) n -
           unsplitTransFy C g gamma dt dens xmom ymom ener i j n)) ∧
    ((unsplitCorrected C g gamma dt dens xmom ymom ener).yl i j n =
      (unsplitPreStates C g gamma dt dens xmom ymom ener).yl i j n -
        0.5 * dt / g.dx *
          (unsplitTransFx C g gamma dt dens xmom ymom ener (i + 1) (j - 1) n -
           unsplitTransFx C g gamma dt dens xmom ymom ener i (j - 1) n)) ∧
    ((unsplitCorrected C g gamma dt dens xmom ymom ener).yr i j n =
      (unsplitPreStates C g gamma dt dens xmom ymom ener).yr i j n -
        0.5 * dt / g.dx *
          (unsplitTransFx C g gamma dt dens xmom ymom ener (i + 1) j n -
           unsplitTransFx C g gamma dt dens xmom ymom ener i j n)) := by
  obtain ⟨hxl, hxr, hyl, hyr⟩ :=
    transLoop_spec g dt (unsplitTransFx C g gamma dt dens xmom ymom ener)
      (unsplitTransFy C g gamma dt dens xmom ymom ener)
      (unsplitPreStates C g gamma dt dens xmom ymom ener) i j n
  obtain ⟨h1, h2, h3, h4, h5⟩ := h
  unfold unsplitCorrected
  refine ⟨?_, ?_, ?_, ?_⟩
  · rw [hxl, if_pos ⟨h1, h2, h3, h4, h5⟩]; rfl
  · rw [hxr, if_pos ⟨h1, h2, h3, h4, h5⟩]; rfl
  · rw [hyl, if_pos ⟨h1, h2, h3, h4, h5⟩]; rfl
  · rw [hyr, if_pos ⟨h1, h2, h3, h4, h5⟩]; rfl

/-- C3: the fluxes returned by `unsplitFluxes` are the second Riemann
invocation applied to the corrected states; the corrected states are the
transverse correction of the pre-correction states using the first
invocation's fluxes; and the first invocation operates on the uncorrected
states.  The first invocation's fluxes reach the return value only through
the corrected states (they are overwritten, never mixed in). -/
theorem claim_C3_two_pass_ordering (C : Collab) (g : Grid) (gamma dt : ℝ)
    (dens xmom ymom ener : SArr) :
    (unsplitFluxes C g gamma dt dens xmom ymom ener =
      (C.riemann 1 (unsplitCorrected C g gamma dt dens xmom ymom ener).xl
         (unsplitCorrected C g gamma dt dens xmom ymom ener).xr,
       C.riemann 2 (unsplitCorrected C g gamma dt dens xmom ymom ener).yl
         (unsplitCorrected C g gamma dt dens xmom ymom ener).yr)) ∧
    (unsplitCorrected C g gamma dt dens xmom ymom ener =
      transLoop g dt (unsplitTransFx C g gamma dt dens xmom ymom ener)
        (unsplitTransFy C g gamma dt dens xmom ymom ener)
        (unsplitPreStates C g gamma dt dens xmom ymom ener)) ∧
    (unsplitTransFx C g gamma dt dens xmom ymom ener =
      C.riemann 1 (unsplitPreStates C g gamma dt dens xmom ymom ener).xl
        (unsplitPreStates C g gamma dt dens xmom ymom ener).xr) ∧
    (unsplitTransFy C g gamma dt dens xmom ymom ener =
      C.riemann 2 (unsplitPreStates C g gamma dt dens xmom ymom ener).yl
        (unsplitPreStates C g gamma dt dens xmom ymom ener).yr) :=
  ⟨rfl, rfl, rfl, rfl⟩

/-- C5: `unsplitFluxes` derives `u = xmom/dens`, `v = ymom/dens`,
`e = (ener − 0.5(xmom² + ymom²)/dens)/dens` and `p` as the EOS pressure of
`(dens, e)` clipped below at `smallp = 1e-10`; consequently for every cell
with `dens > 0` the derived pressure is at least `1e-10`. -/
theorem claim_C5_primitive_derivation (gamma : ℝ) (dens xmom ymom ener : SArr)
    (i j : ℤ) (h : 0 < dens i j) :
    unsplit_u dens xmom i j = xmom i j / dens i j ∧
    unsplit_v dens ymom i j = ymom i j / dens i j ∧
    unsplit_e dens xmom ymom ener i j =
      (ener i j - 0.5 * ((xmom i j) ^ 2 + (ymom i j) ^ 2) / dens i j) /
        dens i j ∧
    unsplit_p gamma dens xmom ymom ener i j =
      max (eosPres gamma (dens i j) (unsplit_e dens xmom ymom ener i j))
        smallp ∧
    smallp = (1 : ℝ) / 10 ^ 10 ∧
    (1 : ℝ) / 10 ^ 10 ≤ unsplit_p gamma dens xmom ymom ener i j := by
  refine ⟨rfl, rfl, rfl, rfl, ?_, ?_⟩
  · norm_num [smallp]
  · have hs : smallp = (1 : ℝ) / 10 ^ 10 := by norm_num [smallp]
    calc (1 : ℝ) / 10 ^ 10 = smallp := hs.symm
    _ ≤ unsplit_p gamma dens xmom ymom ener i j := le_max_right _ _

/-- C6: for every cell state with `dens > 0` whose gamma-law EOS pressure is
at least the floor `1e-10`, the conserved-variable transform (applied by the
identical `primToCons` formulas to all four directional states) maps the
derived primitive state back to the original conserved tuple. -/
theorem claim_C6_round_trip (gamma : ℝ) (dens xmom ymom ener : SArr)
    (i j : ℤ) (n : ℕ) (hn : n < 4) (hd : 0 < dens i j)
    (hp : smallp ≤ eosPres gamma (dens i j)
      (unsplit_e dens xmom ymom ener i j)) :
    primToCons gamma
      (fun a b m => vec4 (dens a b) (unsplit_u dens xmom a b)
        (unsplit_v dens ymom a b)
        (unsplit_p gamma dens xmom ymom ener a b) m) i j n =
      vec4 (dens i j) (xmom i j) (ymom i j) (ener i j) n := by
  have hdne : dens i j ≠ 0 := ne_of_gt hd
  have hsp : (0 : ℝ) < smallp := by norm_num [smallp]
  have hpres : 0 < eosPres gamma (dens i j)
      (unsplit_e dens xmom ymom ener i j) := lt_of_lt_of_le hsp hp
  have hg : gamma - 1 ≠ 0 := by
    intro hg0
    rw [eosPres, hg0, mul_zero] at hpres
    exact lt_irrefl 0 hpres
  have hclip : unsplit_p gamma dens xmom ymom ener i j =
      eosPres gamma (dens i j) (unsplit_e dens xmom ymom ener i j) :=
    max_eq_left hp
  match n, hn with
  | 0, _ => rfl
  | 1, _ =>
    show dens i j * (xmom i j / dens i j) = xmom i j
    field_simp
  | 2, _ =>
    show dens i j * (ymom i j / dens i j) = ymom i j
    field_simp
  | 3, _ =>
    show eosRhoe gamma (unsplit_p gamma dens xmom ymom ener i j) +
      0.5 * dens i j *
        ((unsplit_u dens xmom i j) ^ 2 + (unsplit_v dens ymom i j) ^ 2) =
      ener i j
    rw [hclip]
    unfold eosRhoe eosPres unsplit_e unsplit_u unsplit_v
    rw [mul_div_assoc, div_self hg, mul_one]
    field_simp
    ring

/-- C2: for every cell in the 2-buffered interior and each sweep direction,
`interfaceStates` builds the left state of the high-side interface as
`V + 0.5(1 − (dt/dx)·max(λ_max,0))·dV` plus `Σ_m βl[m]·r_m` with
`βl[m] = (dt/(4dx))(λ_max − λ_m)(sign(λ_m)+1)(l_m·dV)`, and the right state
of the low-side interface as `V − 0.5(1 + (dt/dx)·min(λ_min,0))·dV` plus
`Σ_m βr[m]·r_m` with `βr[m] = (dt/(4dx))(λ_min − λ_m)(1 − sign(λ_m))(l_m·dV)`,
using eigenvalues `{u−cs, u, u, u+cs}` (`v` in the y sweep),
`cs = sqrt(γp/ρ)`, and the analytic gamma-law eigenvectors with the
transverse velocity purely advected. -/
theorem claim_C2_interface_states (g : Grid) (gamma dt : ℝ)
    (r u v p ldelta_r ldelta_u ldelta_v ldelta_p : SArr) (i j : ℤ) (m : ℕ)
    (h : g.ilo - 2 ≤ i ∧ i ≤ g.ihi + 2 ∧ g.jlo - 2 ≤ j ∧ j ≤ g.jhi + 2 ∧
      m < 4) :
    ((interfaceStates 1 g gamma dt r u v p
        ldelta_r ldelta_u ldelta_v ldelta_p).Vl (i + 1) j m =
      zV r u v p i j m +
        0.5 * (1 - dt / g.dx *
          max (u i j + Real.sqrt (gamma * p i j / r i j)) 0) *
          zDV ldelta_r ldelta_u ldelta_v ldelta_p i j m +
        ∑ k ∈ Finset.range 4,
          (0.25 * (dt / g.dx) *
            (u i j + Real.sqrt (gamma * p i j / r i j) -
              zEvals 1 gamma (zV r u v p i j) k) *
            (npsign (zEvals 1 gamma (zV r u v p i j) k) + 1) *
            (∑ l ∈ Finset.range 4,
              zLvec 1 gamma (zV r u v p i j) k l *
                zDV ldelta_r ldelta_u ldelta_v ldelta_p i j l)) *
          zRvec 1 gamma (zV r u v p i j) k m) ∧
    ((interfaceStates 1 g gamma dt r u v p
        ldelta_r ldelta_u ldelta_v ldelta_p).Vr i j m =
      zV r u v p i j m -
        0.5 * (1 + dt / g.dx *
          min (u i j - Real.sqrt (gamma * p i j / r i j)) 0) *
          zDV ldelta_r ldelta_u ldelta_v ldelta_p i j m +
        ∑ k ∈ Finset.range 4,
          (0.25 * (dt / g.dx) *
            (u i j - Real.sqrt (gamma * p i j / r i j) -
              zEvals 1 gamma (zV r u v p i j) k) *
            (1 - npsign (zEvals 1 gamma (zV r u v p i j) k)) *
            (∑ l ∈ Finset.range 4,
              zLvec 1 gamma (zV r u v p i j) k l *
                zDV ldelta_r ldelta_u ldelta_v ldelta_p i j l)) *
          zRvec 1 gamma (zV r u v p i j) k m) ∧
    ((interfaceStates 2 g gamma dt r u v p
        ldelta_r ldelta_u ldelta_v ldelta_p).Vl i (j + 1) m =
      zV r u v p i j m +
        0.5 * (1 - dt / g.dy *
          max (v i j + Real.sqrt (gamma * p i j / r i j)) 0) *
          zDV ldelta_r ldelta_u ldelta_v ldelta_p i j m +
        ∑ k ∈ Finset.range 4,
          (0.25 * (dt / g.dy) *
            (v i j + Real.sqrt (gamma * p i j / r i j) -
              zEvals 2 gamma (zV r u v p i j) k) *
            (npsign (zEvals 2 gamma (zV r u v p i j) k) + 1) *
            (∑ l ∈ Finset.range 4,
              zLvec 2 gamma (zV r u v p i j) k l *
                zDV ldelta_r ldelta_u ldelta_v ldelta_p i j l)) *
          zRvec 2 gamma (zV r u v p i j) k m) ∧
    ((interfaceStates 2 g gamma dt r u v p
        ldelta_r ldelta_u ldelta_v ldelta_p).Vr i j m =
      zV r u v p i j m -
        0.5 * (1 + dt / g.dy *
          min (v i j - Real.sqrt (gamma * p i j / r i j)) 0) *
          zDV ldelta_r ldelta_u ldelta_v ldelta_p i j m +
        ∑ k ∈ Finset.range 4,
          (0.25 * (dt / g.dy) *
            (v i j - Real.sqrt (gamma * p i j / r i j) -
              zEvals 2 gamma (zV r u v p i j) k) *
            (1 - npsign (zEvals 2 gamma (zV r u v p i j) k)) *
            (∑ l ∈ Finset.range 4,
              zLvec 2 gamma (zV r u v p i j) k l *
                zDV ldelta_r ldelta_u ldelta_v ldelta_p i j l)) *
          zRvec 2 gamma (zV r u v p i j) k m) ∧
    (zEvals 1 gamma (zV r u v p i j) =
      vec4 (u i j - Real.sqrt (gamma * p i j / r i j)) (u i j) (u i j)
        (u i j + Real.sqrt (gamma * p i j / r i j))) ∧
    (zEvals 2 gamma (zV r u v p i j) =
      vec4 (v i j - Real.sqrt (gamma * p i j / r i j)) (v i j) (v i j)
        (v i j + Real.sqrt (gamma * p i j / r i j))) ∧
    (zRvec 1 gamma (zV r u v p i j) 2 = vec4 0 0 1 0) ∧
    (zLvec 1 gamma (zV r u v p i j) 2 = vec4 0 0 1 0) ∧
    (zRvec 2 gamma (zV r u v p i j) 2 = vec4 0 1 0 0) ∧
    (zLvec 2 gamma (zV r u v p i j) 2 = vec4 0 1 0 0) := by
  obtain ⟨h1, h2, h3, h4, h5⟩ := h
  have e1 : i + 1 - offI 1 = i := by simp [offI]
  have e2 : j - offJ 1 = j := by simp [offJ]
  have e3 : i - offI 2 = i := by simp [offI]
  have e4 : j + 1 - offJ 2 = j := by simp [offJ]
  obtain ⟨hxl, -⟩ := interfaceStates_spec 1 g gamma dt r u v p
    ldelta_r ldelta_u ldelta_v ldelta_p (i + 1) j m
  obtain ⟨-, hxr⟩ := interfaceStates_spec 1 g gamma dt r u v p
    ldelta_r ldelta_u ldelta_v ldelta_p i j m
  obtain ⟨hyl, -⟩ := interfaceStates_spec 2 g gamma dt r u v p
    ldelta_r ldelta_u ldelta_v ldelta_p i (j + 1) m
  obtain ⟨-, hyr⟩ := interfaceStates_spec 2 g gamma dt r u v p
    ldelta_r ldelta_u ldelta_v ldelta_p i j m
  rw [e1, e2] at hxl
  rw [e3, e4] at hyl
  refine ⟨?_, ?_, ?_, ?_, rfl, rfl, rfl, rfl, rfl, rfl⟩
  · rw [hxl, if_pos ⟨h1, h2, h3, h4, h5⟩]; rfl
  · rw [hxr, if_pos ⟨h1, h2, h3, h4, h5⟩]; rfl
  · rw [hyl, if_pos ⟨h1, h2, h3, h4, h5⟩]; rfl
  · rw [hyr, if_pos ⟨h1, h2, h3, h4, h5⟩]; rfl

/-- C4 counterexample: with the unknown Riemann solver name "FOO", the
`compressible_rk` `fluxes` routine performs limiting and interface-state
construction BEFORE reaching the fatal diagnostic, so it does not fail fast
before any per-cell computation; moreover the diagnostic is the fixed string
`"ERROR: Riemann solver undefined"`, which does not name the bad option. -/
theorem claim_C4_counterexample :
    failsBeforePerCell (rkTrace "FOO" true) = false ∧
    rkTrace "FOO" true =
      [.primDerive, .flattenStep, .limitStep, .statesX, .primToConsX,
       .statesY, .primToConsY, .fail "ERROR: Riemann solver undefined"] := by
  constructor
  · decide
  · decide

/-- C4 amended: for every configuration whose Riemann solver name is neither
"HLLC" nor "CGF", the `fluxes` routine does fail with the fixed diagnostic
`"ERROR: Riemann solver undefined"` (not naming the bad option) before any
Riemann solve or artificial-viscosity pass — but only after the per-cell
limiting and interface-state construction have already run. -/
theorem claim_C4_amended (name : String) (useFlat : Bool)
    (R : RkCollab) (g : Grid) (gamma cvisc : ℝ) (limiter : ℕ)
    (sxl sxr syl syr : Bool) (U : Arr)
    (h1 : name ≠ "HLLC") (h2 : name ≠ "CGF") :
    rkTrace name useFlat =
      [.primDerive] ++ (if useFlat then [.flattenStep] else []) ++
      [.limitStep, .statesX, .primToConsX, .statesY, .primToConsY,
       .fail "ERROR: Riemann solver undefined"] ∧
    REvent.riemannSolve ∉ rkTrace name useFlat ∧
    REvent.aviscStep ∉ rkTrace name useFlat ∧
    rkFluxes R g gamma cvisc name useFlat limiter sxl sxr syl syr U =
      Except.error "ERROR: Riemann solver undefined" := by
  have hcond : ¬(name = "HLLC" ∨ name = "CGF") := by
    rintro (h | h)
    · exact h1 h
    · exact h2 h
  refine ⟨?_, ?_, ?_, ?_⟩
  · unfold rkTrace
    rw [if_neg hcond]
    simp
  · unfold rkTrace
    rw [if_neg hcond]
    rcases useFlat <;> simp
  · unfold rkTrace
    rw [if_neg hcond]
    rcases useFlat <;> simp
  · unfold rkFluxes
    have hfunc : rkRiemannFunc R name = none := by
      unfold rkRiemannFunc
      rw [if_neg h1, if_neg h2]
    rw [hfunc]

/-- C7: for a grid with the minimum contractual `ng = 2` ghost layers, the
transverse-correction loop reads `F_y` at column index `ilo-3 = -1` (which
Python silently wraps to the opposite edge `qx-1`) and at row index
`jhi+3 = qy` (past the array end); and every read of `F_x`/`F_y` stays inside
`0..qx-1 × 0..qy-1` without wrapping if and only if `ng ≥ 3`. -/
theorem claim_C7_transverse_bounds (g : Grid) :
    (g.ng = 2 →
      (transReadsFy g (g.ilo - 2) (g.jhi + 3) ∧ g.jhi + 3 = g.qy ∧
        g.qy - 1 < g.jhi + 3 ∧ ¬ pyNoWrap g.qy (g.jhi + 3)) ∧
      (transReadsFy g (g.ilo - 3) (g.jlo - 2) ∧ g.ilo - 3 = -1 ∧
        ¬ pyNoWrap g.qx (g.ilo - 3) ∧
        pyResolve g.qx (g.ilo - 3) = g.qx - 1)) ∧
    ((∀ a b, transReadsFy g a b ∨ transReadsFx g a b →
        pyNoWrap g.qx a ∧ pyNoWrap g.qy b) ↔ 3 ≤ g.ng) := by
  constructor
  · intro hng
    refine ⟨⟨?_, ?_, ?_, ?_⟩, ?_, ?_, ?_, ?_⟩
    · refine ⟨g.ilo - 2, g.jhi + 2, ?_, ?_,
        Or.inr (Or.inr (Or.inl ⟨rfl, by omega⟩))⟩ <;>
        · simp only [Grid.ilo, Grid.ihi, Grid.jlo, Grid.jhi]
          omega
    · simp only [Grid.jhi, Grid.jlo, Grid.qy]
      omega
    · simp only [Grid.jhi, Grid.jlo, Grid.qy]
      omega
    · unfold pyNoWrap
      simp only [Grid.jhi, Grid.jlo, Grid.qy]
      omega
    · refine ⟨g.ilo - 2, g.jlo - 2, ?_, ?_,
        Or.inr (Or.inl ⟨by omega, rfl⟩)⟩ <;>
        · simp only [Grid.ilo, Grid.ihi, Grid.jlo, Grid.jhi]
          omega
    · simp only [Grid.ilo]
      omega
    · unfold pyNoWrap
      simp only [Grid.ilo, Grid.qx]
      omega
    · unfold pyResolve
      simp only [Grid.ilo, Grid.qx]
      rw [if_pos (by omega)]
      omega
  · constructor
    · intro hall
      have hread : transReadsFy g (g.ilo - 3) (g.jlo - 2) := by
        refine ⟨g.ilo - 2, g.jlo - 2, ?_, ?_,
          Or.inr (Or.inl ⟨by omega, rfl⟩)⟩ <;>
          · simp only [Grid.ilo, Grid.ihi, Grid.jlo, Grid.jhi]
            omega
      have := (hall _ _ (Or.inl hread)).1
      unfold pyNoWrap at this
      simp only [Grid.ilo, Grid.qx] at this
      omega
    · intro hng a b hab
      unfold pyNoWrap
      simp only [Grid.qx, Grid.qy]
      rcases hab with h | h <;>
        obtain ⟨ii, jj, hi, hj, hc⟩ := h <;>
        rcases hc with ⟨ha, hb⟩ | ⟨ha, hb⟩ | ⟨ha, hb⟩ | ⟨ha, hb⟩ <;>
        · subst ha; subst hb
          simp only [Grid.ilo, Grid.ihi, Grid.jlo, Grid.jhi] at hi hj
          omega

/-- C8: the flux routines read the conserved solution arrays but never write
them.  First conjunct: the caller's data store comes back unchanged from
`unsplitFluxes` (the routine only binds local scratch arrays).  Second
conjunct: no conserved array is among the mutation targets of either
routine's mutating statements. -/
theorem claim_C8_no_mutation_of_conserved :
    (∀ (C : Collab) (g : Grid) (gamma dt : ℝ) (store : VarName → SArr),
      (unsplitFluxesData C g gamma dt store).1 = store) ∧
    (∀ nm, nm ∈ conservedInputs →
      nm ∉ unsplitMutatedArrays ∧ nm ∉ rkMutatedArrays) := by
  refine ⟨fun C g gamma dt store => rfl, ?_⟩
  intro nm hnm
  fin_cases hnm <;> exact ⟨by decide, by decide⟩

/-- C9: in the `compressible_rk` variant, when the Riemann solver name
resolves, the returned fluxes are exactly the Riemann-solver fluxes plus the
local additive artificial-viscosity term — `F_x` gains
`avisco_x·(U[i-1,j,n] − U[i,j,n])` and `F_y` gains
`avisco_y·(U[i,j-1,n] − U[i,j,n])` on the buffered region — and nothing else
modifies the fluxes after the Riemann solve. -/
theorem claim_C9_artificial_viscosity (R : RkCollab) (g : Grid)
    (gamma cvisc : ℝ) (name : String) (useFlat : Bool) (limiter : ℕ)
    (sxl sxr syl syr : Bool) (U : Arr)
    (f : ℕ → Bool → Bool → Arr → Arr → Arr)
    (hf : rkRiemannFunc R name = some f) (i j : ℤ) (n : ℕ) (hn : n < 4) :
    (rkFluxes R g gamma cvisc name useFlat limiter sxl sxr syl syr U =
      Except.ok
        (rkFinalFx R g gamma cvisc f useFlat limiter sxl sxr syl syr U,
         rkFinalFy R g gamma cvisc f useFlat limiter sxl sxr syl syr U)) ∧
    (rkFinalFx R g gamma cvisc f useFlat limiter sxl sxr syl syr U i j n =
      (rkNormalFlux R g gamma f useFlat limiter sxl sxr syl syr U).1 i j n +
        (if R.bufRegion21 i j then
          (R.avisc cvisc (fun a b => R.consToPrim U a b 1)
            (fun a b => R.consToPrim U a b 2)).1 i j *
            (U (i - 1) j n - U i j n)
        else 0)) ∧
    (rkFinalFy R g gamma cvisc f useFlat limiter sxl sxr syl syr U i j n =
      (rkNormalFlux R g gamma f useFlat limiter sxl sxr syl syr U).2 i j n +
        (if R.bufRegion21 i j then
          (R.avisc cvisc (fun a b => R.consToPrim U a b 1)
            (fun a b => R.consToPrim U a b 2)).2 i j *
            (U i (j - 1) n - U i j n)
        else 0)) := by
  refine ⟨?_, ?_, ?_⟩
  · unfold rkFluxes
    rw [hf]
    rfl
  · unfold rkFinalFx
    by_cases hb : R.bufRegion21 i j
    · rw [if_pos ⟨hn, hb⟩, if_pos hb]
    · rw [if_neg (fun hcon => hb hcon.2), if_neg hb, add_zero]
  · unfold rkFinalFy
    by_cases hb : R.bufRegion21 i j
    · rw [if_pos ⟨hn, hb⟩, if_pos hb]
    · rw [if_neg (fun hcon => hb hcon.2), if_neg hb, add_zero]

/-- C10: in the `compressible_rk` routine, `V_l` is reused for the y sweep
without being reset: the x sweep writes columns `ilo-1..ihi+3`, rows
`jlo-2..jhi+2`, the y sweep writes columns `ilo-2..ihi+2`, rows
`jlo-1..jhi+3`, so every cell written by the x sweep but not by the y sweep
(in particular column `i = ihi+3`) still holds x-direction interface states
when `U_yl` is formed by `prim_to_cons` over the whole array. -/
theorem claim_C10_stale_interface_states (g : Grid) (gamma : ℝ)
    (q ldx ldy : Arr) (i j : ℤ) (n : ℕ) (hn : n < 4)
    (hX : g.ilo - 1 ≤ i ∧ i ≤ g.ihi + 3 ∧ g.jlo - 2 ≤ j ∧ j ≤ g.jhi + 2)
    (hY : ¬(g.ilo - 2 ≤ i ∧ i ≤ g.ihi + 2 ∧ g.jlo - 1 ≤ j ∧ j ≤ g.jhi + 3)) :
    inVBuf g 2 (i - 1) j ∧
    ¬ inVBuf g 2 i (j - 1) ∧
    (rkStatesY g q ldy (rkStatesX g q ldx)).Vl i j n =
      q (i - 1) j n + 0.5 * ldx (i - 1) j n ∧
    (rkStatesY g q ldy (rkStatesX g q ldx)).Vl i j n =
      (rkStatesX g q ldx).Vl i j n ∧
    primToCons gamma (rkStatesY g q ldy (rkStatesX g q ldx)).Vl i j n =
      primToCons gamma (rkStatesX g q ldx).Vl i j n := by
  have hX' : inVBuf g 2 (i - 1) j := by
    unfold inVBuf
    omega
  have hY' : ¬ inVBuf g 2 i (j - 1) := by
    unfold inVBuf
    omega
  have hag : ∀ m, (rkStatesY g q ldy (rkStatesX g q ldx)).Vl i j m =
      (rkStatesX g q ldx).Vl i j m := by
    intro m
    show (if m < 4 ∧ inVBuf g 2 i (j - 1) then _ else _) = _
    rw [if_neg (fun hcon => hY' hcon.2)]
  refine ⟨hX', hY', ?_, hag n, ?_⟩
  · rw [hag n]
    show (if n < 4 ∧ inVBuf g 2 (i - 1) j then _ else _) = _
    rw [if_pos ⟨hn, hX'⟩]
  · match n, hn with
    | 0, _ => exact hag 0
    | 1, _ =>
      show _ * _ = _ * _
      rw [hag 0, hag 1]
    | 2, _ =>
      show _ * _ = _ * _
      rw [hag 0, hag 2]
    | 3, _ =>
      show eosRhoe gamma _ + 0.5 * _ * (_ ^ 2 + _ ^ 2) =
        eosRhoe gamma _ + 0.5 * _ * (_ ^ 2 + _ ^ 2)
      rw [hag 0, hag 1, hag 2, hag 3]

/-- Witness for C1 at the cell `(2,2)`, component 0, of the concrete grid. -/
theorem claim_C1_witness :
    (wGrid.ilo - 2 ≤ 2 ∧ (2 : ℤ) ≤ wGrid.ihi + 2 ∧ wGrid.jlo - 2 ≤ 2 ∧
      (2 : ℤ) ≤ wGrid.jhi + 2 ∧ (0 : ℕ) < 4) ∧
    ((unsplitCorrected wC wGrid 1 1 wS wS wS wS).xl 2 2 0 =
      (unsplitPreStates wC wGrid 1 1 wS wS wS wS).xl 2 2 0 -
        0.5 * 1 / wGrid.dy *
          (unsplitTransFy wC wGrid 1 1 wS wS wS wS (2 - 1) (2 + 1) 0 -
           unsplitTransFy wC wGrid 1 1 wS wS wS wS (2 - 1) 2 0)) ∧
    ((unsplitCorrected wC wGrid 1 1 wS wS wS wS).xr 2 2 0 =
      (unsplitPreStates wC wGrid 1 1 wS wS wS wS).xr 2 2 0 -
        0.5 * 1 / wGrid.dy *
          (unsplitTransFy wC wGrid 1 1 wS wS wS wS 2 (2 + 1) 0 -
           unsplitTransFy wC wGrid 1 1 wS wS wS wS 2 2 0)) ∧
    ((unsplitCorrected wC wGrid 1 1 wS wS wS wS).yl 2 2 0 =
      (unsplitPreStates wC wGrid 1 1 wS wS wS wS).yl 2 2 0 -
        0.5 * 1 / wGrid.dx *
          (unsplitTransFx wC wGrid 1 1 wS wS wS wS (2 + 1) (2 - 1) 0 -
           unsplitTransFx wC wGrid 1 1 wS wS wS wS 2 (2 - 1) 0)) ∧
    ((unsplitCorrected wC wGrid 1 1 wS wS wS wS).yr 2 2 0 =
      (unsplitPreStates wC wGrid 1 1 wS wS wS wS).yr 2 2 0 -
        0.5 * 1 / wGrid.dx *
          (unsplitTransFx wC wGrid 1 1 wS wS wS wS (2 + 1) 2 0 -
           unsplitTransFx wC wGrid 1 1 wS wS wS wS 2 2 0)) :=
  ⟨by decide,
   claim_C1_transverse_correction wC wGrid 1 1 wS wS wS wS 2 2 0 (by decide)⟩

/-- Witness for C2 at the cell `(2,2)`, component 0, of the concrete grid:
the x-sweep left-state formula and the transverse-advection eigenvector. -/
theorem claim_C2_witness :
    (wGrid.ilo - 2 ≤ 2 ∧ (2 : ℤ) ≤ wGrid.ihi + 2 ∧ wGrid.jlo - 2 ≤ 2 ∧
      (2 : ℤ) ≤ wGrid.jhi + 2 ∧ (0 : ℕ) < 4) ∧
    ((interfaceStates 1 wGrid 1 1 wS wS wS wS wS wS wS wS).Vl (2 + 1) 2 0 =
      zV wS wS wS wS 2 2 0 +
        0.5 * (1 - 1 / wGrid.dx *
          max (wS 2 2 + Real.sqrt (1 * wS 2 2 / wS 2 2)) 0) *
          zDV wS wS wS wS 2 2 0 +
        ∑ k ∈ Finset.range 4,
          (0.25 * (1 / wGrid.dx) *
            (wS 2 2 + Real.sqrt (1 * wS 2 2 / wS 2 2) -
              zEvals 1 1 (zV wS wS wS wS 2 2) k) *
            (npsign (zEvals 1 1 (zV wS wS wS wS 2 2) k) + 1) *
            (∑ l ∈ Finset.range 4,
              zLvec 1 1 (zV wS wS wS wS 2 2) k l * zDV wS wS wS wS 2 2 l)) *
          zRvec 1 1 (zV wS wS wS wS 2 2) k 0) ∧
    zRvec 1 1 (zV wS wS wS wS 2 2) 2 = vec4 0 0 1 0 :=
  ⟨by decide,
   (claim_C2_interface_states wGrid 1 1 wS wS wS wS wS wS wS wS 2 2 0
     (by decide)).1,
   (claim_C2_interface_states wGrid 1 1 wS wS wS wS wS wS wS wS 2 2 0
     (by decide)).2.2.2.2.2.2.1⟩

/-- Witness for the amended C4 at the unknown solver name "FOO". -/
theorem claim_C4_amended_witness :
    ("FOO" ≠ "HLLC" ∧ "FOO" ≠ "CGF") ∧
    (rkTrace "FOO" true =
      [.primDerive] ++ (if true then [.flattenStep] else []) ++
      [.limitStep, .statesX, .primToConsX, .statesY, .primToConsY,
       .fail "ERROR: Riemann solver undefined"] ∧
    REvent.riemannSolve ∉ rkTrace "FOO" true ∧
    REvent.aviscStep ∉ rkTrace "FOO" true ∧
    rkFluxes wR wGrid 1 1 "FOO" true 1 false false false false wA =
      Except.error "ERROR: Riemann solver undefined") :=
  ⟨⟨by decide, by decide⟩,
   claim_C4_amended "FOO" true wR wGrid 1 1 1 false false false false wA
     (by decide) (by decide)⟩

/-- Witness for C5 at a cell of unit density. -/
theorem claim_C5_witness :
    0 < wS 0 0 ∧
    (unsplit_u wS wS 0 0 = wS 0 0 / wS 0 0 ∧
    unsplit_v wS wS 0 0 = wS 0 0 / wS 0 0 ∧
    unsplit_e wS wS wS wS 0 0 =
      (wS 0 0 - 0.5 * ((wS 0 0) ^ 2 + (wS 0 0) ^ 2) / wS 0 0) / wS 0 0 ∧
    unsplit_p 1 wS wS wS wS 0 0 =
      max (eosPres 1 (wS 0 0) (unsplit_e wS wS wS wS 0 0)) smallp ∧
    smallp = (1 : ℝ) / 10 ^ 10 ∧
    (1 : ℝ) / 10 ^ 10 ≤ unsplit_p 1 wS wS wS wS 0 0) :=
  ⟨by norm_num [wS],
   claim_C5_primitive_derivation 1 wS wS wS wS 0 0 (by norm_num [wS])⟩

/-- Witness for C6 at a unit-density, zero-momentum, unit-energy state with
`γ = 2`. -/
theorem claim_C6_witness :
    ((0 : ℕ) < 4 ∧ 0 < wS 0 0 ∧
      smallp ≤ eosPres 2 (wS 0 0) (unsplit_e wS wZ wZ wS 0 0)) ∧
    primToCons 2
      (fun a b m => vec4 (wS a b) (unsplit_u wS wZ a b) (unsplit_v wS wZ a b)
        (unsplit_p 2 wS wZ wZ wS a b) m) 0 0 0 =
      vec4 (wS 0 0) (wZ 0 0) (wZ 0 0) (wS 0 0) 0 :=
  ⟨⟨by decide, by norm_num [wS],
    by norm_num [wS, wZ, smallp, eosPres, unsplit_e]⟩,
   claim_C6_round_trip 2 wS wZ wZ wS 0 0 0 (by decide) (by norm_num [wS])
     (by norm_num [wS, wZ, smallp, eosPres, unsplit_e])⟩

/-- Witness for C7 on the concrete `ng = 2` grid: the out-of-range row read
at `jhi+3 = qy`. -/
theorem claim_C7_witness :
    wGrid.ng = 2 ∧
    (transReadsFy wGrid (wGrid.ilo - 2) (wGrid.jhi + 3) ∧
      wGrid.jhi + 3 = wGrid.qy ∧ wGrid.qy - 1 < wGrid.jhi + 3 ∧
      ¬ pyNoWrap wGrid.qy (wGrid.jhi + 3)) :=
  ⟨rfl, ((claim_C7_transverse_bounds wGrid).1 rfl).1⟩

/-- Witness for C8 at the density array. -/
theorem claim_C8_witness :
    VarName.density ∈ conservedInputs ∧
    (VarName.density ∉ unsplitMutatedArrays ∧
     VarName.density ∉ rkMutatedArrays) :=
  ⟨by decide,
   claim_C8_no_mutation_of_conserved.2 VarName.density (by decide)⟩

/-- Witness for C9 with the "HLLC" solver at the cell `(0,0)`, component 0. -/
theorem claim_C9_witness :
    (rkRiemannFunc wR "HLLC" = some wR.riemannHllc ∧ (0 : ℕ) < 4) ∧
    ((rkFluxes wR wGrid 1 1 "HLLC" true 1 false false false false wA =
      Except.ok
        (rkFinalFx wR wGrid 1 1 wR.riemannHllc true 1 false false false false wA,
         rkFinalFy wR wGrid 1 1 wR.riemannHllc true 1 false false false false wA)) ∧
    (rkFinalFx wR wGrid 1 1 wR.riemannHllc true 1 false false false false wA 0 0 0 =
      (rkNormalFlux wR wGrid 1 wR.riemannHllc true 1 false false false false wA).1 0 0 0 +
        (if wR.bufRegion21 0 0 then
          (wR.avisc 1 (fun a b => wR.consToPrim wA a b 1)
            (fun a b => wR.consToPrim wA a b 2)).1 0 0 *
            (wA (0 - 1) 0 0 - wA 0 0 0)
        else 0)) ∧
    (rkFinalFy wR wGrid 1 1 wR.riemannHllc true 1 false false false false wA 0 0 0 =
      (rkNormalFlux wR wGrid 1 wR.riemannHllc true 1 false false false false wA).2 0 0 0 +
        (if wR.bufRegion21 0 0 then
          (wR.avisc 1 (fun a b => wR.consToPrim wA a b 1)
            (fun a b => wR.consToPrim wA a b 2)).2 0 0 *
            (wA 0 (0 - 1) 0 - wA 0 0 0)
        else 0))) :=
  ⟨⟨rfl, by decide⟩,
   claim_C9_artificial_viscosity wR wGrid 1 1 "HLLC" true 1
     false false false false wA wR.riemannHllc rfl 0 0 0 (by decide)⟩

/-- Witness for C10 at the stale column `i = ihi+3 = 5` of the concrete
grid. -/
theorem claim_C10_witness :
    ((0 : ℕ) < 4 ∧
     (wGrid.ilo - 1 ≤ 5 ∧ (5 : ℤ) ≤ wGrid.ihi + 3 ∧ wGrid.jlo - 2 ≤ 2 ∧
       (2 : ℤ) ≤ wGrid.jhi + 2) ∧
     ¬(wGrid.ilo - 2 ≤ 5 ∧ (5 : ℤ) ≤ wGrid.ihi + 2 ∧ wGrid.jlo - 1 ≤ 2 ∧
       (2 : ℤ) ≤ wGrid.jhi + 3)) ∧
    (inVBuf wGrid 2 (5 - 1) 2 ∧
    ¬ inVBuf wGrid 2 5 (2 - 1) ∧
    (rkStatesY wGrid wA wA (rkStatesX wGrid wA wA)).Vl 5 2 0 =
      wA (5 - 1) 2 0 + 0.5 * wA (5 - 1) 2 0 ∧
    (rkStatesY wGrid wA wA (rkStatesX wGrid wA wA)).Vl 5 2 0 =
      (rkStatesX wGrid wA wA).Vl 5 2 0 ∧
    primToCons 1 (rkStatesY wGrid wA wA (rkStatesX wGrid wA wA)).Vl 5 2 0 =
      primToCons 1 (rkStatesX wGrid wA wA).Vl 5 2 0) :=
  ⟨⟨by decide, by decide, by decide⟩,
   claim_C10_stale_interface_states wGrid 1 wA wA wA 5 2 0 (by decide)
     (by decide) (by decide)⟩

